import Mathlib

/-!
A shallow embedding of the game-room engine of `six-games`
(`src/server/src/GameServer/ServerRoom.ts`): the base `ServerRoom` class and
its `ChessServerRoom` subclass, which together manage membership, connection
grace periods, the game-status state machine, the two per-color chess clocks
and resolution bookkeeping.

Modelling conventions:
* The two classes share one mutable object in TypeScript; the subclass
  re-declares and re-assigns the shared fields in its constructor.  We model
  the net result as a single structure `ChessServerRoom`; methods inherited
  from the base class are embedded as functions on that structure and marked
  as such in their doc comments.
* JavaScript objects keyed by numeric user ids enumerate their keys in
  ascending numeric order; `sessions` is an association list kept sorted by
  key, and `Object.values` is its list of values in that order.
* Side effects visible to clients (socket `emit` / `broadcast`) are logged in
  an `events` field; database writes (`PlayedGame.create`) are logged in
  `dbWrites`; the `destroy` emitter event is a `destroyed` flag.
* Wall-clock decay of running timers between operation boundaries is not
  modelled; `timeLeft` tracks only the operation-driven changes
  (initialisation and `addTime`), which is what the claims below depend on.
* Typed errors thrown by the code (`AlreadyConnectedError`,
  `IllegalMoveError`) are returned as an `Option RoomError` next to the
  post-state; a method that throws returns the state exactly as mutated up
  to the throw point.  A TypeScript non-null assertion (`x!`) that fails at
  runtime is a `TypeError` thrown at that point: the embedding returns the
  state as mutated up to that point, with no typed error.
* `Math.random`, `DateTime.now`, and configuration reads are free inputs:
  the constructor takes the randomly drawn color, the `isFake` flag and the
  creation instant as parameters, and every externally triggered operation
  carries the timestamps it needs.
-/

/-- `Color` from `DataModel.ts` (not under `src/`); the spec describes it as a
two-valued enum whose `swap` is its own inverse, matching the `'w'`/`'b'`
values compared against `chess.turn()`. -/
inductive Color
  | White
  | Black
deriving DecidableEq

/-- `GameStatus` from `DataModel.ts`: the three-state status machine of §3 of
the spec. -/
inductive GameStatus
  | NotStarted
  | InProgress
  | Finished
deriving DecidableEq

/-- `GameResolution` from `DataModel.ts`: the reasons a finished game ended
(spec glossary). -/
inductive GameResolution
  | Checkmate
  | Stalemate
  | Draw
  | OutOfTime
  | GiveUp
  | PlayerQuit
deriving DecidableEq

/-- `ChessServerRoom.swapColor`. -/
def swapColor : Color → Color
  | Color.White => Color.Black
  | Color.Black => Color.White

/-- External user identity; only the numeric id is relevant to the engine. -/
structure User where
  id : Nat
deriving DecidableEq

/-- `MemberState` from `DataModel.ts`: `{connected, isPlayer, color?}`. -/
structure MemberState where
  connected : Bool
  isPlayer : Bool
  color : Option Color
deriving DecidableEq

/-- `Member` from `DataModel.ts`: a user plus its state. -/
structure Member where
  user : User
  state : MemberState
deriving DecidableEq

/-- Modelled from the spec (§4.3): `PausableTimer.ts` is not under `src/`.
A suspendable countdown: `timeLeft` is the remaining duration and `isGoing`
whether it is actively counting down.  Wall-clock decay between operation
boundaries is abstracted away (see the module comment). -/
structure PausableTimer where
  timeLeft : Int
  isGoing : Bool
deriving DecidableEq

namespace PausableTimer

/-- Modelled from the spec: `new PausableTimer(callback, duration?)` — created
not running, with the given initial remaining time. -/
def new (duration : Int) : PausableTimer :=
  { timeLeft := duration, isGoing := false }

/-- Modelled from the spec: `start()` with no argument resumes from the last
known remaining time; calling `start` while already running is a no-op. -/
def start (t : PausableTimer) : PausableTimer :=
  if t.isGoing then t else { t with isGoing := true }

/-- Modelled from the spec: `start(durationMillis)` (re)initialises the
remaining time and begins counting down; a no-op while already running. -/
def startWith (t : PausableTimer) (duration : Int) : PausableTimer :=
  if t.isGoing then t else { timeLeft := duration, isGoing := true }

/-- Modelled from the spec: `pause()` freezes the remaining time. -/
def pause (t : PausableTimer) : PausableTimer :=
  { t with isGoing := false }

/-- Modelled from the spec: `stop()` cancels the countdown permanently; at
operation boundaries the observable state coincides with `pause`. -/
def stop (t : PausableTimer) : PausableTimer :=
  { t with isGoing := false }

/-- Modelled from the spec: `addTime(deltaMillis)` adjusts the remaining
time, whether running or paused. -/
def addTime (t : PausableTimer) (delta : Int) : PausableTimer :=
  { t with timeLeft := t.timeLeft + delta }

end PausableTimer

/-- A move as submitted by a client (`Move` from `DataModel.ts`); the engine
only forwards it, so only the `from`/`to` squares are modelled. -/
structure Move where
  fromSq : String
  toSq : String
deriving DecidableEq

/-- The rules oracle's verdict on a submitted move: whether `chess.move`
accepts it, and the terminal-condition flags the oracle reports on the
resulting position.  The oracle (`chess.js`) is an external collaborator
(spec §1, §6), so its answers are inputs of the operation. -/
structure MoveVerdict where
  legal : Bool
  isCheckmate : Bool
  isStalemate : Bool
  isDraw : Bool
deriving DecidableEq

/-- The engine-visible state of the rules oracle (`this.chess`): whose turn
it is, the move history (`pgn`), and the terminal flags of the current
position. -/
structure Chess where
  turn : Color
  history : List Move
  isCheckmate : Bool
  isStalemate : Bool
  isDraw : Bool
deriving DecidableEq

namespace Chess

/-- `new Chess()`: White to move, empty history, no terminal condition. -/
def init : Chess :=
  { turn := Color.White, history := [], isCheckmate := false
    isStalemate := false, isDraw := false }

/-- `chess.move(move)`: throws (returns `none`) on an illegal move with the
position unchanged; on a legal move the turn alternates, the move is appended
to the history and the terminal flags become those of the new position. -/
def move (c : Chess) (m : Move) (v : MoveVerdict) : Option Chess :=
  if v.legal then
    some { turn := swapColor c.turn, history := c.history ++ [m]
           isCheckmate := v.isCheckmate, isStalemate := v.isStalemate
           isDraw := v.isDraw }
  else
    none

end Chess

/-- `TimerState` from `DataModel.ts`: read-only snapshot of the two clocks. -/
structure TimerState where
  whiteTimeLeft : Int
  blackTimeLeft : Int
deriving DecidableEq

/-- Outbound socket traffic (spec §6); each constructor is one
`emit`/`broadcast` of `ServerRoom.ts`.  `init` is the full-room snapshot sent
to the joiner only; the rest are broadcasts. -/
inductive Event
  | init (uid : Nat)
  | memberJoin (uid : Nat)
  | memberUpdate (uid : Nat) (st : MemberState)
  | memberLeave (uid : Nat)
  | gameStart
  | move (m : Move) (snap : Option TimerState)
  | gameEnd (res : Option GameResolution) (winner : Option Nat) (snap : Option TimerState)
deriving DecidableEq

/-- `GameRules` from `DataModel.ts` (spec §3): timer flag, initial seconds,
increment seconds, host's preferred color. -/
structure GameRules where
  timer : Bool
  initialTime : Option Nat
  timerIncrement : Option Nat
  hostPreferredColor : Option Color
deriving DecidableEq

/-- The record passed to `PlayedGame.create` by `ChessServerRoom.saveGame`.
Fields read through a TypeScript non-null assertion keep their optional
type here, mirroring what the untyped runtime call would receive. -/
structure PlayedGameRecord where
  id : String
  timerEnabled : Bool
  timerInit : Nat
  timerIncrement : Nat
  pgn : List Move
  resolution : Option GameResolution
  winner : Option Color
  whitePlayerID : Option Nat
  blackPlayerID : Option Nat
deriving DecidableEq

/-- The typed errors of `Errors.ts` thrown by the room methods. -/
inductive RoomError
  | AlreadyConnected (msg : String)
  | IllegalMove (msg : String)
deriving DecidableEq

/-- `MemberSession`: a member, its live connection handle (modelled by a
Boolean presence flag), the join instant in milliseconds and an optional
disconnect-grace timer. -/
structure MemberSession where
  member : Member
  hasSocket : Bool
  joined : Nat
  disconnectTimer : Option PausableTimer
deriving DecidableEq

/-- The net state of a `ChessServerRoom` (including the fields it shares
with its base class `ServerRoom`).  `winnerId` is the base-class field
initialised to `0` in the constructor; `winnerID` is `_gameState.winnerID`. -/
structure ChessServerRoom where
  id : String
  hostID : Nat
  gameRules : GameRules
  isFake : Bool
  status : GameStatus
  resolution : Option GameResolution
  winnerID : Option Nat
  sessions : List (Nat × MemberSession)
  winnerId : Nat
  inactivityTimer : PausableTimer
  chess : Chess
  whitePlayerID : Option Nat
  blackPlayerID : Option Nat
  whiteTimer : Option PausableTimer
  blackTimer : Option PausableTimer
  events : List Event
  dbWrites : List PlayedGameRecord
  destroyed : Bool
deriving DecidableEq

/-- `gameServer.inactivityTimeout * 1000`: configuration-loaded; the source
comment says 3 minutes.  No claim depends on the value. -/
def InactivityTimeout : Int := 180 * 1000

/-- `gameServer.disconnectTimeout * 1000`: configuration-loaded; the source
comment says 1 minute.  No claim depends on the value. -/
def DisconnectTimeout : Int := 60 * 1000

namespace ChessServerRoom

/-- `this.sessions[uid]` as a lookup. -/
def lookupSession (r : ChessServerRoom) (uid : Nat) : Option MemberSession :=
  (r.sessions.find? (fun p => p.1 = uid)).map Prod.snd

/-- `this.sessions[uid] = s`: JavaScript keeps an existing integer key in
place and enumerates a fresh integer key in ascending numeric order, so the
association list is kept sorted by key. -/
def storeSession (sessions : List (Nat × MemberSession)) (uid : Nat)
    (s : MemberSession) : List (Nat × MemberSession) :=
  match sessions with
  | [] => [(uid, s)]
  | (k, v) :: rest =>
    if uid = k then (uid, s) :: rest
    else if uid < k then (uid, s) :: (k, v) :: rest
    else (k, v) :: storeSession rest uid s

/-- `delete this.sessions[uid]`. -/
def removeSession (sessions : List (Nat × MemberSession)) (uid : Nat) :
    List (Nat × MemberSession) :=
  sessions.filter (fun p => ¬ p.1 = uid)

/-- `Object.values(this.sessions)` in enumeration order. -/
def sessionValues (r : ChessServerRoom) : List MemberSession :=
  r.sessions.map Prod.snd

/-- `ServerRoom.connectedSessions`. -/
def connectedSessions (r : ChessServerRoom) : List MemberSession :=
  (r.sessionValues).filter (fun s => s.member.state.connected)

/-- `numberOfConnectedMembers`. -/
def numberOfConnectedMembers (r : ChessServerRoom) : Nat :=
  r.connectedSessions.length

/-- `isUserPresent`. -/
def isUserPresent (r : ChessServerRoom) (uid : Nat) : Bool :=
  (r.lookupSession uid).isSome

/-- `isUserConnected`: `Boolean(this.sessions[userID]?.member.state.connected)`. -/
def isUserConnected (r : ChessServerRoom) (uid : Nat) : Bool :=
  match r.lookupSession uid with
  | some s => s.member.state.connected
  | none => false

/-- `this.sessions[this.hostID].member.state.connected` (the host session
always exists; a missing host yields `false` rather than a crash). -/
def hostConnected (r : ChessServerRoom) : Bool :=
  match r.lookupSession r.hostID with
  | some s => s.member.state.connected
  | none => false

/-- The `timer` getter of `ChessServerRoom`: a snapshot when both clocks
exist, otherwise `undefined`. -/
def timer (r : ChessServerRoom) : Option TimerState :=
  match r.whiteTimer, r.blackTimer with
  | some w, some b => some { whiteTimeLeft := w.timeLeft, blackTimeLeft := b.timeLeft }
  | _, _ => none

/-- `ServerRoom.getWinnerId`: `this.sessions[this.winnerId!].member.user`.
The lookup has no existence check; a missing key makes the member access
throw a `TypeError`, modelled as `none`. -/
def getWinnerId (r : ChessServerRoom) : Option User :=
  (r.lookupSession r.winnerId).map (fun s => s.member.user)

/-- The net effect of `new ChessServerRoom(host, gameRules, id)` (the base
constructor runs first and the subclass constructor re-creates the shared
fields): one host session, not connected, a player with the preferred or
randomly drawn color; status `NotStarted`; `winnerId = 0` (base class);
the inactivity timer started; the player slot of the host's color bound to
the host.  `randomColor` stands for the `ChessServerRoom.randomColor()`
draw and `isFake` for the configuration comparison in the base ctor. -/
def new (host : User) (gameRules : GameRules) (id : String)
    (randomColor : Color) (isFake : Bool) (now : Nat) : ChessServerRoom :=
  let hostColor := gameRules.hostPreferredColor.getD randomColor
  { id := id
    hostID := host.id
    gameRules := gameRules
    isFake := isFake
    status := GameStatus.NotStarted
    resolution := none
    winnerID := none
    sessions := [(host.id,
      { member :=
          { user := host
            state := { connected := false, isPlayer := true, color := some hostColor } }
        hasSocket := false
        joined := now
        disconnectTimer := none })]
    winnerId := 0
    inactivityTimer := (PausableTimer.new 0).startWith InactivityTimeout
    chess := Chess.init
    whitePlayerID := if hostColor = Color.White then some host.id else none
    blackPlayerID := if hostColor = Color.Black then some host.id else none
    whiteTimer := none
    blackTimer := none
    events := []
    dbWrites := []
    destroyed := false }

end ChessServerRoom

namespace ChessServerRoom

/-- `session.disconnectTimer?.stop()` over all sessions (run by
`ServerRoom.checkGameEnd` and `ServerRoom.handleDisconnectTimeout`). -/
def stopDisconnectTimers (r : ChessServerRoom) : ChessServerRoom :=
  { r with sessions := r.sessions.map
                (fun p => (p.1, { p.2 with disconnectTimer := p.2.disconnectTimer.map PausableTimer.stop })) }

/-- `this.whiteTimer?.pause(); this.blackTimer?.pause()` (run by
`ChessServerRoom.checkGameEnd`, `handleGiveUp` and `handleDisconnectTimeout`). -/
def pauseColorTimers (r : ChessServerRoom) : ChessServerRoom :=
  { r with whiteTimer := r.whiteTimer.map PausableTimer.pause
           blackTimer := r.blackTimer.map PausableTimer.pause }

/-- `ServerRoom.checkInactivity`. -/
def checkInactivity (r : ChessServerRoom) : ChessServerRoom :=
  if r.numberOfConnectedMembers = 0 then
    if r.status = GameStatus.NotStarted then
      { r with inactivityTimer := r.inactivityTimer.startWith InactivityTimeout }
    else if r.status = GameStatus.Finished then
      { r with destroyed := true }
    else r
  else r

/-- `ChessServerRoom.saveGame` (which first awaits `ServerRoom.saveGame`):
the base method throws if the game is not finished (modelled as returning
the unchanged state, since the throw precedes any mutation) and returns
early — skipping only its own body — when `isFake` is set; the subclass then
calls `PlayedGame.create` unconditionally, logged in `dbWrites`. -/
def saveGame (r : ChessServerRoom) : ChessServerRoom :=
  if ¬ r.status = GameStatus.Finished then r
  else
    let winner : Option Color :=
      if r.winnerID = r.whitePlayerID then some Color.White
      else if r.winnerID = r.blackPlayerID then some Color.Black
      else none
    { r with dbWrites := r.dbWrites ++
        [{ id := r.id
           timerEnabled := r.gameRules.timer
           timerInit := r.gameRules.initialTime.getD 0
           timerIncrement := r.gameRules.timerIncrement.getD 0
           pgn := r.chess.history
           resolution := r.resolution
           winner := winner
           whitePlayerID := r.whitePlayerID
           blackPlayerID := r.blackPlayerID }] }

/-- `ChessServerRoom.isFinishCond`: queries the oracle's terminal flags and,
as a side effect, records resolution and (for checkmate) the winner:
the side opposite to the post-move turn. -/
def isFinishCondUpd (r : ChessServerRoom) : ChessServerRoom × Bool :=
  if r.chess.isCheckmate then
    ({ r with resolution := some GameResolution.Checkmate
              winnerID := if r.chess.turn = Color.White then r.blackPlayerID else r.whitePlayerID },
     true)
  else if r.chess.isStalemate then
    ({ r with resolution := some GameResolution.Stalemate }, true)
  else if r.chess.isDraw then
    ({ r with resolution := some GameResolution.Draw }, true)
  else (r, false)

/-- `ChessServerRoom.checkGameEnd`: pauses both clocks, then runs the base
`ServerRoom.checkGameEnd` (re-evaluating `isFinishCond`, marking the game
finished, broadcasting `gameEnd`, stopping grace timers, recording a truthy
winner id, re-evaluating inactivity and saving). -/
def checkGameEnd (r : ChessServerRoom) : ChessServerRoom :=
  let r := r.pauseColorTimers
  let fr := r.isFinishCondUpd
  if ¬ fr.2 then fr.1
  else
    let r := { fr.1 with status := GameStatus.Finished }
    let winnerId := r.winnerID
    let r := { r with events := r.events ++
        [Event.gameEnd r.resolution winnerId (if r.gameRules.timer then r.timer else none)] }
    let r := r.stopDisconnectTimers
    let r := match winnerId with
      | some w => if ¬ w = 0 then { r with winnerId := w } else r
      | none => r
    let r := r.checkInactivity
    r.saveGame

/-- The connected non-player sessions considered by `selectOpponent`. -/
def nonPlayerConnected (r : ChessServerRoom) : List MemberSession :=
  r.connectedSessions.filter (fun s => ¬ s.member.state.isPlayer)

/-- Stable insertion for the descending-by-join-date sort performed by
`selectOpponent` (`sort((a, b) => b.joined - a.joined)`; `Array.prototype.sort`
is stable). -/
def insertDesc (x : MemberSession) : List MemberSession → List MemberSession
  | [] => [x]
  | y :: ys => if y.joined ≤ x.joined then x :: y :: ys else y :: insertDesc x ys

/-- The stable descending-by-join-date sort of `selectOpponent`. -/
def sortDesc : List MemberSession → List MemberSession
  | [] => []
  | x :: xs => insertDesc x (sortDesc xs)

/-- The session `selectOpponent` picks: `nonPlayerSessions.pop()` after the
descending sort, i.e. the last element of the sorted list. -/
def selectedOpponent (r : ChessServerRoom) : Option MemberSession :=
  (sortDesc r.nonPlayerConnected).getLast?

/-- `this.sessions[this.hostID].member.state.color!` — the host session
always carries a color; the non-null assertion is modelled by defaulting. -/
def hostColor (r : ChessServerRoom) : Color :=
  match r.lookupSession r.hostID with
  | some s => s.member.state.color.getD Color.White
  | none => Color.White

/-- `ChessServerRoom.selectOpponent`: promotes the selected session to
player with the color complementary to the host's, binds the matching player
slot and broadcasts the membership change.  A failing `pop()!` (no eligible
session) throws before any mutation. -/
def selectOpponent (r : ChessServerRoom) : ChessServerRoom :=
  let hc := r.hostColor
  match r.selectedOpponent with
  | none => r
  | some sel =>
    let newState : MemberState :=
      { connected := sel.member.state.connected, isPlayer := true
        color := some (swapColor hc) }
    let sel2 : MemberSession := { sel with member := { sel.member with state := newState } }
    let r := { r with sessions := storeSession r.sessions sel.member.user.id sel2 }
    let r :=
      if swapColor hc = Color.White then { r with whitePlayerID := some sel.member.user.id }
      else { r with blackPlayerID := some sel.member.user.id }
    { r with events := r.events ++ [Event.memberUpdate sel.member.user.id newState] }

/-- `ChessServerRoom.setUpGameBeforeStart`: select the opponent, subscribe
both players' action channels (socket handlers; no tracked state), mark the
game in progress and, with timers enabled, create both clocks with the
initial time and start White's. -/
def setUpGameBeforeStart (r : ChessServerRoom) : ChessServerRoom :=
  let r := r.selectOpponent
  let r := { r with status := GameStatus.InProgress }
  if r.gameRules.timer then
    let initMs : Int := ((r.gameRules.initialTime.getD 0 : Nat) : Int) * 1000
    let r := { r with whiteTimer := some (PausableTimer.new initMs)
                      blackTimer := some (PausableTimer.new initMs) }
    { r with whiteTimer := r.whiteTimer.map PausableTimer.start }
  else r

/-- `ServerRoom.startGame` (the `ChessServerRoom` override only calls
`super`): set up the game, then broadcast `gameStart`. -/
def startGame (r : ChessServerRoom) : ChessServerRoom :=
  let r := r.setUpGameBeforeStart
  { r with events := r.events ++ [Event.gameStart] }

/-- `ServerRoom.acceptConnection`: rejects a duplicate active connection with
`AlreadyConnectedError` before any mutation; otherwise cancels the
inactivity timer, reactivates the existing session (or creates a new
non-player session), sends the snapshot to the joiner, notifies the others
and cancels a pending disconnect-grace timer. -/
def acceptConnectionBase (r : ChessServerRoom) (user : User) (now : Nat) :
    ChessServerRoom × Option RoomError :=
  if r.isUserConnected user.id then
    (r, some (RoomError.AlreadyConnected "You can not connect to the same room twice"))
  else
    let r :=
      if r.inactivityTimer.isGoing then { r with inactivityTimer := r.inactivityTimer.stop }
      else r
    let r :=
      if r.isUserPresent user.id then
        match r.lookupSession user.id with
        | some s =>
          let s2 : MemberSession :=
            { s with hasSocket := true
                     member := { s.member with state := { s.member.state with connected := true } } }
          let r := { r with sessions := storeSession r.sessions user.id s2 }
          { r with events := r.events ++ [Event.init user.id, Event.memberUpdate user.id s2.member.state] }
        | none => r
      else
        let s : MemberSession :=
          { member := { user := user, state := { connected := true, isPlayer := false, color := none } }
            hasSocket := true
            joined := now
            disconnectTimer := none }
        let r := { r with sessions := storeSession r.sessions user.id s }
        { r with events := r.events ++ [Event.init user.id, Event.memberJoin user.id] }
    let r :=
      match r.lookupSession user.id with
      | some s =>
        match s.disconnectTimer with
        | some _ => { r with sessions := storeSession r.sessions user.id { s with disconnectTimer := none } }
        | none => r
      | none => r
    (r, none)

/-- `ChessServerRoom.acceptConnection`: `super.acceptConnection`, then start
the game once the host and a second connected member are present while
`NotStarted`; a reconnecting player while `InProgress` is only re-subscribed
to its action channels (no tracked state). -/
def acceptConnection (r : ChessServerRoom) (user : User) (now : Nat) :
    ChessServerRoom × Option RoomError :=
  match r.acceptConnectionBase user now with
  | (r1, some e) => (r1, some e)
  | (r1, none) =>
    if r1.status = GameStatus.NotStarted ∧ 2 ≤ r1.numberOfConnectedMembers ∧ r1.hostConnected = true then
      (r1.startGame, none)
    else (r1, none)

/-- The trailing `if (this.isFinishCond()) { this.checkGameEnd(); }` of
`ChessServerRoom.handleMove` (note `isFinishCond` mutates resolution and
winner, and `checkGameEnd` re-evaluates it). -/
def afterMoveCheck (r : ChessServerRoom) : ChessServerRoom :=
  let fr := r.isFinishCondUpd
  if fr.2 then fr.1.checkGameEnd else fr.1

/-- `ChessServerRoom.handleMove`: rejects with `IllegalMoveError` while not
in progress or out of turn; otherwise applies the move to the oracle (which
throws on an illegal move), switches the clocks — starting the side to move,
pausing the mover and crediting the mover's clock with the increment —
broadcasts the move and checks terminal conditions. -/
def handleMove (r : ChessServerRoom) (m : Move) (v : MoveVerdict) (color : Color) :
    ChessServerRoom × Option RoomError :=
  if ¬ r.status = GameStatus.InProgress then
    (r, some (RoomError.IllegalMove "Game is not in progress"))
  else if ¬ r.chess.turn = color then
    (r, some (RoomError.IllegalMove "This was not your turn"))
  else
    match r.chess.move m v with
    | none => (r, some (RoomError.IllegalMove "Invalid move"))
    | some chess2 =>
      let r := { r with chess := chess2 }
      if r.gameRules.timer then
        let incMs : Int := ((r.gameRules.timerIncrement.getD 0 : Nat) : Int) * 1000
        if r.chess.turn = Color.White then
          match r.whiteTimer with
          | none => (r, none)
          | some w =>
            let r := { r with whiteTimer := some w.start }
            match r.blackTimer with
            | none => (r, none)
            | some b =>
              let r := { r with blackTimer := some ((b.pause).addTime incMs) }
              let r := { r with events := r.events ++ [Event.move m r.timer] }
              (r.afterMoveCheck, none)
        else
          match r.blackTimer with
          | none => (r, none)
          | some b =>
            let r := { r with blackTimer := some b.start }
            match r.whiteTimer with
            | none => (r, none)
            | some w =>
              let r := { r with whiteTimer := some ((w.pause).addTime incMs) }
              let r := { r with events := r.events ++ [Event.move m r.timer] }
              (r.afterMoveCheck, none)
      else
        let r := { r with events := r.events ++ [Event.move m none] }
        (r.afterMoveCheck, none)

/-- `ChessServerRoom.handleGiveUp`: a no-op unless in progress; otherwise the
opponent wins by `GiveUp` and the terminal path runs (pause clocks, cancel
grace timers, broadcast, re-evaluate inactivity, save). -/
def handleGiveUp (r : ChessServerRoom) (color : Color) : ChessServerRoom :=
  if ¬ r.status = GameStatus.InProgress then r
  else
    let r := { r with resolution := some GameResolution.GiveUp
                      winnerID := if color = Color.White then r.blackPlayerID else r.whitePlayerID }
    let r := { r with status := GameStatus.Finished }
    let r := r.pauseColorTimers
    let r := r.stopDisconnectTimers
    let r := { r with events := r.events ++
        [Event.gameEnd r.resolution r.winnerID (if r.gameRules.timer then r.timer else none)] }
    let r := r.checkInactivity
    r.saveGame

/-- `ChessServerRoom.handleDisconnectTimeout`: record `PlayerQuit` with the
opponent as winner, then the base handler (finish the game, stop every
session's grace timer, save), then pause both clocks. -/
def handleDisconnectTimeout (r : ChessServerRoom) (uid : Nat) : ChessServerRoom :=
  let r := { r with resolution := some GameResolution.PlayerQuit
                    winnerID := if some uid = r.whitePlayerID then r.blackPlayerID else r.whitePlayerID }
  let r := { r with status := GameStatus.Finished }
  let r := r.stopDisconnectTimers
  let r := r.saveGame
  r.pauseColorTimers

/-- `ChessServerRoom.handleTimerOut`: stop both clocks and all grace timers,
record `OutOfTime` with the other side as winner, finish, broadcast with the
timer snapshot, re-evaluate inactivity and save.  The leading non-null
assertions throw if a clock is missing. -/
def handleTimerOut (r : ChessServerRoom) (side : Color) : ChessServerRoom :=
  match r.whiteTimer, r.blackTimer with
  | some w, some b =>
    let r := { r with whiteTimer := some w.stop, blackTimer := some b.stop }
    let r := r.stopDisconnectTimers
    let r := { r with resolution := some GameResolution.OutOfTime
                      winnerID := if side = Color.White then r.blackPlayerID else r.whitePlayerID }
    let r := { r with status := GameStatus.Finished }
    let r := { r with events := r.events ++ [Event.gameEnd r.resolution r.winnerID r.timer] }
    let r := r.checkInactivity
    r.saveGame
  | none, _ => r
  | some w, none => { r with whiteTimer := some w.stop }

/-- `ServerRoom.handleDisconnect`: a disconnected player keeps its session,
loses its connection handle and — only mid-game — gains a disconnect-grace
timer; a disconnected non-player's session is deleted.  Inactivity is
re-evaluated in both cases. -/
def handleDisconnect (r : ChessServerRoom) (uid : Nat) : ChessServerRoom :=
  match r.lookupSession uid with
  | none => r
  | some s =>
    let r :=
      if s.member.state.isPlayer then
        let s2 : MemberSession :=
          { s with hasSocket := false
                   member := { s.member with state := { s.member.state with connected := false } } }
        let r := { r with sessions := storeSession r.sessions uid s2 }
        let r := { r with events := r.events ++ [Event.memberUpdate uid s2.member.state] }
        if r.status = GameStatus.InProgress then
          { r with sessions := storeSession r.sessions uid
                      { s2 with disconnectTimer := some ((PausableTimer.new 0).startWith DisconnectTimeout) } }
        else r
      else
        let r := { r with sessions := removeSession r.sessions uid }
        { r with events := r.events ++ [Event.memberLeave uid] }
    r.checkInactivity

/-- `ServerRoom.handleInactivityTimeout`: emits `destroy`. -/
def handleInactivityTimeout (r : ChessServerRoom) : ChessServerRoom :=
  { r with destroyed := true }

/-- The inbound operations that mutate a room (spec §6): connection events,
moves and resignations from the transport, and the timer callbacks. -/
inductive Op
  | acceptConnection (user : User) (now : Nat)
  | handleDisconnect (uid : Nat)
  | makeMove (m : Move) (v : MoveVerdict) (color : Color)
  | giveUp (color : Color)
  | disconnectTimeout (uid : Nat)
  | timerOut (side : Color)
  | inactivityTimeout

/-- One inbound event processed to completion (the room is single-threaded,
spec §5). -/
def step (r : ChessServerRoom) : Op → ChessServerRoom
  | Op.acceptConnection u now => (r.acceptConnection u now).1
  | Op.handleDisconnect uid => r.handleDisconnect uid
  | Op.makeMove m v c => (r.handleMove m v c).1
  | Op.giveUp c => r.handleGiveUp c
  | Op.disconnectTimeout uid => r.handleDisconnectTimeout uid
  | Op.timerOut side => r.handleTimerOut side
  | Op.inactivityTimeout => r.handleInactivityTimeout

/-- A sequence of inbound events. -/
def run (r : ChessServerRoom) (ops : List Op) : ChessServerRoom :=
  ops.foldl step r

end ChessServerRoom

namespace ChessServerRoom

/-- Forward order of the status machine `NotStarted → InProgress → Finished`
(spec §3): a transition is forward exactly when the rank does not decrease. -/
def statusRank : GameStatus → Nat
  | GameStatus.NotStarted => 0
  | GameStatus.InProgress => 1
  | GameStatus.Finished => 2

/-- `isGoing` of an optional clock (`undefined` is not counting down). -/
def timerGoing : Option PausableTimer → Bool
  | none => false
  | some t => t.isGoing

/-- At most one of the two per-color clocks is actively counting down
(spec §3 invariant). -/
def atMostOneClock (r : ChessServerRoom) : Prop :=
  timerGoing r.whiteTimer = false ∨ timerGoing r.blackTimer = false

end ChessServerRoom

open ChessServerRoom

/-! Concrete rooms and event sequences used to evaluate the claims on
explicit inputs. -/

/-- A quiet legal move: the oracle accepts it and reports no terminal
condition. -/
def vQuiet : MoveVerdict :=
  { legal := true, isCheckmate := false, isStalemate := false, isDraw := false }

/-- A legal move after which the oracle reports checkmate. -/
def vMate : MoveVerdict :=
  { legal := true, isCheckmate := true, isStalemate := false, isDraw := false }

/-- A legal move after which the oracle reports stalemate. -/
def vStale : MoveVerdict :=
  { legal := true, isCheckmate := false, isStalemate := true, isDraw := false }

/-- A concrete move payload. -/
def mvA : Move := { fromSq := "e2", toSq := "e4" }

/-- Another concrete move payload. -/
def mvB : Move := { fromSq := "e7", toSq := "e5" }

/-- Game rules without a timer, host prefers White. -/
def rulesNoTimer : GameRules :=
  { timer := false, initialTime := none, timerIncrement := none
    hostPreferredColor := some Color.White }

/-- The timer-enabled rules of the spec §8 scenario: initial 300 s,
increment 5 s, host prefers White. -/
def rulesTimer : GameRules :=
  { timer := true, initialTime := some 300, timerIncrement := some 5
    hostPreferredColor := some Color.White }

/-- An untimed room hosted by user 1 (White). -/
def roomA : ChessServerRoom := ChessServerRoom.new ⟨1⟩ rulesNoTimer "roomA" Color.White false 0

/-- Users 2 and 3 join while the host is away; the host then connects,
starting the game and triggering opponent selection with two candidates of
join times 100 and 200. -/
def opsJoinLate : List Op :=
  [Op.acceptConnection ⟨2⟩ 100, Op.acceptConnection ⟨3⟩ 200, Op.acceptConnection ⟨1⟩ 300]

/-- The room state after `opsJoinLate`. -/
def c1Final : ChessServerRoom := run roomA opsJoinLate

/-- The room state after users 2 and 3 joined while the host is away: the
state on which the next (host) connection triggers opponent selection. -/
def c1Pre : ChessServerRoom :=
  run roomA [Op.acceptConnection ⟨2⟩ 100, Op.acceptConnection ⟨3⟩ 200]

/-- The session of user 2 inside `c1Pre`: connected non-player, joined at
time 100 — the candidate `selectOpponent` picks there. -/
def c1Sel : MemberSession :=
  { member := { user := ⟨2⟩, state := { connected := true, isPlayer := false, color := none } }
    hasSocket := true
    joined := 100
    disconnectTimer := none }

/-- The timer-enabled room of the spec §8 scenario, hosted by user 1. -/
def roomT : ChessServerRoom := ChessServerRoom.new ⟨1⟩ rulesTimer "roomT" Color.White false 0

/-- Host connects, then user 2: the game starts with user 2 as Black. -/
def opsStart : List Op := [Op.acceptConnection ⟨1⟩ 10, Op.acceptConnection ⟨2⟩ 20]

/-- The timer room right after the game starts. -/
def tStarted : ChessServerRoom := run roomT opsStart

/-- The timer room after White's first accepted move. -/
def tAfterWhite : ChessServerRoom := run roomT (opsStart ++ [Op.makeMove mvA vQuiet Color.White])

/-- A room whose id matches the configured fake-room id (`isFake = true`),
untimed, hosted by user 1. -/
def roomFake : ChessServerRoom := ChessServerRoom.new ⟨1⟩ rulesNoTimer "fakeroom" Color.White true 0

/-- Host and user 2 connect (game starts), then White resigns: the game
finishes and the completion path calls `saveGame`. -/
def opsFakeFinish : List Op :=
  [Op.acceptConnection ⟨1⟩ 10, Op.acceptConnection ⟨2⟩ 20, Op.giveUp Color.White]

/-- The fake room after its game finished by resignation. -/
def fakeFinished : ChessServerRoom := run roomFake opsFakeFinish

namespace ChessServerRoom

/-- Sortedness by descending join date: the order produced by the
`selectOpponent` comparator `(a, b) => b.joined - a.joined`. -/
def SortedDescBy : List MemberSession → Prop
  | [] => True
  | [_] => True
  | a :: b :: l => b.joined ≤ a.joined ∧ SortedDescBy (b :: l)

end ChessServerRoom

namespace ChessServerRoom

/-! Field bookkeeping for the terminal-path helpers: which fields each one
leaves untouched, and how it changes the rest. -/

theorem saveGame_status (r : ChessServerRoom) : (r.saveGame).status = r.status := by
  unfold saveGame; split <;> rfl

theorem saveGame_resolution (r : ChessServerRoom) : (r.saveGame).resolution = r.resolution := by
  unfold saveGame; split <;> rfl

theorem saveGame_winnerID (r : ChessServerRoom) : (r.saveGame).winnerID = r.winnerID := by
  unfold saveGame; split <;> rfl

theorem saveGame_winnerId (r : ChessServerRoom) : (r.saveGame).winnerId = r.winnerId := by
  unfold saveGame; split <;> rfl

theorem saveGame_whiteTimer (r : ChessServerRoom) : (r.saveGame).whiteTimer = r.whiteTimer := by
  unfold saveGame; split <;> rfl

theorem saveGame_blackTimer (r : ChessServerRoom) : (r.saveGame).blackTimer = r.blackTimer := by
  unfold saveGame; split <;> rfl

theorem saveGame_sessions (r : ChessServerRoom) : (r.saveGame).sessions = r.sessions := by
  unfold saveGame; split <;> rfl

theorem checkInactivity_status (r : ChessServerRoom) : (r.checkInactivity).status = r.status := by
  unfold checkInactivity
  split
  · split
    · rfl
    · split <;> rfl
  · rfl

theorem checkInactivity_resolution (r : ChessServerRoom) :
    (r.checkInactivity).resolution = r.resolution := by
  unfold checkInactivity
  split
  · split
    · rfl
    · split <;> rfl
  · rfl

theorem checkInactivity_winnerID (r : ChessServerRoom) :
    (r.checkInactivity).winnerID = r.winnerID := by
  unfold checkInactivity
  split
  · split
    · rfl
    · split <;> rfl
  · rfl

theorem checkInactivity_winnerId (r : ChessServerRoom) :
    (r.checkInactivity).winnerId = r.winnerId := by
  unfold checkInactivity
  split
  · split
    · rfl
    · split <;> rfl
  · rfl

theorem checkInactivity_whiteTimer (r : ChessServerRoom) :
    (r.checkInactivity).whiteTimer = r.whiteTimer := by
  unfold checkInactivity
  split
  · split
    · rfl
    · split <;> rfl
  · rfl

theorem checkInactivity_blackTimer (r : ChessServerRoom) :
    (r.checkInactivity).blackTimer = r.blackTimer := by
  unfold checkInactivity
  split
  · split
    · rfl
    · split <;> rfl
  · rfl

theorem checkInactivity_sessions (r : ChessServerRoom) :
    (r.checkInactivity).sessions = r.sessions := by
  unfold checkInactivity
  split
  · split
    · rfl
    · split <;> rfl
  · rfl

theorem stopDisconnectTimers_status (r : ChessServerRoom) :
    (r.stopDisconnectTimers).status = r.status := rfl

theorem stopDisconnectTimers_resolution (r : ChessServerRoom) :
    (r.stopDisconnectTimers).resolution = r.resolution := rfl

theorem stopDisconnectTimers_winnerID (r : ChessServerRoom) :
    (r.stopDisconnectTimers).winnerID = r.winnerID := rfl

theorem stopDisconnectTimers_winnerId (r : ChessServerRoom) :
    (r.stopDisconnectTimers).winnerId = r.winnerId := rfl

theorem stopDisconnectTimers_whiteTimer (r : ChessServerRoom) :
    (r.stopDisconnectTimers).whiteTimer = r.whiteTimer := rfl

theorem stopDisconnectTimers_blackTimer (r : ChessServerRoom) :
    (r.stopDisconnectTimers).blackTimer = r.blackTimer := rfl

/-- After `stopDisconnectTimers` no session's grace timer is counting down. -/
theorem stopDisconnectTimers_stopped (r : ChessServerRoom) :
    ∀ p ∈ (r.stopDisconnectTimers).sessions, timerGoing p.2.disconnectTimer = false := by
  intro p hp
  unfold stopDisconnectTimers at hp
  simp only [List.mem_map] at hp
  obtain ⟨q, _, hq⟩ := hp
  subst hq
  cases q.2.disconnectTimer <;> rfl

theorem pauseColorTimers_status (r : ChessServerRoom) :
    (r.pauseColorTimers).status = r.status := rfl

theorem pauseColorTimers_resolution (r : ChessServerRoom) :
    (r.pauseColorTimers).resolution = r.resolution := rfl

theorem pauseColorTimers_winnerID (r : ChessServerRoom) :
    (r.pauseColorTimers).winnerID = r.winnerID := rfl

theorem pauseColorTimers_winnerId (r : ChessServerRoom) :
    (r.pauseColorTimers).winnerId = r.winnerId := rfl

theorem pauseColorTimers_sessions (r : ChessServerRoom) :
    (r.pauseColorTimers).sessions = r.sessions := rfl

theorem pauseColorTimers_whiteTimer (r : ChessServerRoom) :
    (r.pauseColorTimers).whiteTimer = r.whiteTimer.map PausableTimer.pause := rfl

theorem pauseColorTimers_blackTimer (r : ChessServerRoom) :
    (r.pauseColorTimers).blackTimer = r.blackTimer.map PausableTimer.pause := rfl

theorem pauseColorTimers_chess (r : ChessServerRoom) :
    (r.pauseColorTimers).chess = r.chess := rfl

/-- A paused optional clock is never counting down. -/
theorem timerGoing_map_pause (o : Option PausableTimer) :
    timerGoing (o.map PausableTimer.pause) = false := by
  cases o <;> rfl

/-- A stopped optional clock is never counting down. -/
theorem timerGoing_map_stop (o : Option PausableTimer) :
    timerGoing (o.map PausableTimer.stop) = false := by
  cases o <;> rfl

end ChessServerRoom

namespace ChessServerRoom

/-! `isFinishCond` bookkeeping: the fields it leaves untouched and its
outcome under each oracle verdict. -/

theorem isFinishCondUpd_fst_status (r : ChessServerRoom) :
    (r.isFinishCondUpd).1.status = r.status := by
  unfold isFinishCondUpd
  split
  · rfl
  · split
    · rfl
    · split <;> rfl

theorem isFinishCondUpd_fst_whiteTimer (r : ChessServerRoom) :
    (r.isFinishCondUpd).1.whiteTimer = r.whiteTimer := by
  unfold isFinishCondUpd
  split
  · rfl
  · split
    · rfl
    · split <;> rfl

theorem isFinishCondUpd_fst_blackTimer (r : ChessServerRoom) :
    (r.isFinishCondUpd).1.blackTimer = r.blackTimer := by
  unfold isFinishCondUpd
  split
  · rfl
  · split
    · rfl
    · split <;> rfl

theorem isFinishCondUpd_fst_winnerId (r : ChessServerRoom) :
    (r.isFinishCondUpd).1.winnerId = r.winnerId := by
  unfold isFinishCondUpd
  split
  · rfl
  · split
    · rfl
    · split <;> rfl

theorem isFinishCondUpd_fst_sessions (r : ChessServerRoom) :
    (r.isFinishCondUpd).1.sessions = r.sessions := by
  unfold isFinishCondUpd
  split
  · rfl
  · split
    · rfl
    · split <;> rfl

theorem isFinishCondUpd_fst_chess (r : ChessServerRoom) :
    (r.isFinishCondUpd).1.chess = r.chess := by
  unfold isFinishCondUpd
  split
  · rfl
  · split
    · rfl
    · split <;> rfl

theorem isFinishCondUpd_mate (r : ChessServerRoom) (h : r.chess.isCheckmate = true) :
    (r.isFinishCondUpd).1.resolution = some GameResolution.Checkmate ∧
    (r.isFinishCondUpd).1.winnerID =
      (if r.chess.turn = Color.White then r.blackPlayerID else r.whitePlayerID) ∧
    (r.isFinishCondUpd).2 = true := by
  unfold isFinishCondUpd
  simp [h]

theorem isFinishCondUpd_stalemate (r : ChessServerRoom)
    (h1 : r.chess.isCheckmate = false) (h2 : r.chess.isStalemate = true) :
    (r.isFinishCondUpd).1.resolution = some GameResolution.Stalemate ∧
    (r.isFinishCondUpd).1.winnerID = r.winnerID ∧
    (r.isFinishCondUpd).2 = true := by
  unfold isFinishCondUpd
  simp [h1, h2]

theorem isFinishCondUpd_draw (r : ChessServerRoom)
    (h1 : r.chess.isCheckmate = false) (h2 : r.chess.isStalemate = false)
    (h3 : r.chess.isDraw = true) :
    (r.isFinishCondUpd).1.resolution = some GameResolution.Draw ∧
    (r.isFinishCondUpd).1.winnerID = r.winnerID ∧
    (r.isFinishCondUpd).2 = true := by
  unfold isFinishCondUpd
  simp [h1, h2, h3]

theorem isFinishCondUpd_quiet (r : ChessServerRoom)
    (h1 : r.chess.isCheckmate = false) (h2 : r.chess.isStalemate = false)
    (h3 : r.chess.isDraw = false) :
    r.isFinishCondUpd = (r, false) := by
  unfold isFinishCondUpd
  simp [h1, h2, h3]

theorem isFinishCondUpd_fst_winnerID_of_not_mate (r : ChessServerRoom)
    (h1 : r.chess.isCheckmate = false) :
    (r.isFinishCondUpd).1.winnerID = r.winnerID := by
  unfold isFinishCondUpd
  simp only [h1]
  split
  · simp at *
  · split
    · rfl
    · split <;> rfl

end ChessServerRoom

namespace ChessServerRoom

theorem pauseColorTimers_whitePlayerID (r : ChessServerRoom) :
    (r.pauseColorTimers).whitePlayerID = r.whitePlayerID := rfl

theorem pauseColorTimers_blackPlayerID (r : ChessServerRoom) :
    (r.pauseColorTimers).blackPlayerID = r.blackPlayerID := rfl

theorem pauseColorTimers_winnerID_eq (r : ChessServerRoom) :
    (r.pauseColorTimers).winnerID = r.winnerID := rfl

/-- `isFinishCond` returns true exactly when the oracle reports a terminal
condition. -/
theorem isFinishCondUpd_snd (r : ChessServerRoom) :
    (r.isFinishCondUpd).2 = (r.chess.isCheckmate || r.chess.isStalemate || r.chess.isDraw) := by
  unfold isFinishCondUpd
  split
  · simp_all
  · split
    · simp_all
    · split <;> simp_all

/-- Any status is at most `Finished` in the forward order. -/
theorem statusRank_le_finished (s : GameStatus) :
    statusRank s ≤ statusRank GameStatus.Finished := by
  cases s <;> simp [statusRank]

/-- With no terminal condition, `checkGameEnd` only pauses the clocks. -/
theorem checkGameEnd_quiet (r : ChessServerRoom)
    (h1 : r.chess.isCheckmate = false) (h2 : r.chess.isStalemate = false)
    (h3 : r.chess.isDraw = false) :
    r.checkGameEnd = r.pauseColorTimers := by
  unfold checkGameEnd
  have hq : (r.pauseColorTimers).isFinishCondUpd = (r.pauseColorTimers, false) :=
    isFinishCondUpd_quiet _ (by rw [pauseColorTimers_chess]; exact h1)
      (by rw [pauseColorTimers_chess]; exact h2)
      (by rw [pauseColorTimers_chess]; exact h3)
  simp [hq]

theorem checkGameEnd_whiteTimer (r : ChessServerRoom) :
    (r.checkGameEnd).whiteTimer = r.whiteTimer.map PausableTimer.pause := by
  unfold checkGameEnd
  dsimp only
  split
  · rw [isFinishCondUpd_fst_whiteTimer, pauseColorTimers_whiteTimer]
  · rw [saveGame_whiteTimer, checkInactivity_whiteTimer]
    split
    · split <;>
        simp [stopDisconnectTimers_whiteTimer, isFinishCondUpd_fst_whiteTimer,
          pauseColorTimers_whiteTimer]
    · simp [stopDisconnectTimers_whiteTimer, isFinishCondUpd_fst_whiteTimer,
        pauseColorTimers_whiteTimer]

theorem checkGameEnd_blackTimer (r : ChessServerRoom) :
    (r.checkGameEnd).blackTimer = r.blackTimer.map PausableTimer.pause := by
  unfold checkGameEnd
  dsimp only
  split
  · rw [isFinishCondUpd_fst_blackTimer, pauseColorTimers_blackTimer]
  · rw [saveGame_blackTimer, checkInactivity_blackTimer]
    split
    · split <;>
        simp [stopDisconnectTimers_blackTimer, isFinishCondUpd_fst_blackTimer,
          pauseColorTimers_blackTimer]
    · simp [stopDisconnectTimers_blackTimer, isFinishCondUpd_fst_blackTimer,
        pauseColorTimers_blackTimer]

/-- With a terminal condition reported, `checkGameEnd` finishes the game. -/
theorem checkGameEnd_status_terminal (r : ChessServerRoom)
    (h : r.chess.isCheckmate = true ∨ r.chess.isStalemate = true ∨ r.chess.isDraw = true) :
    (r.checkGameEnd).status = GameStatus.Finished := by
  unfold checkGameEnd
  dsimp only
  split
  · next hc =>
    exfalso
    apply hc
    rw [isFinishCondUpd_snd, pauseColorTimers_chess]
    rcases h with h | h | h <;> simp [h]
  · rw [saveGame_status, checkInactivity_status]
    split
    · split <;> simp [stopDisconnectTimers_status]
    · simp [stopDisconnectTimers_status]

/-- `checkGameEnd` never moves the status backwards. -/
theorem checkGameEnd_statusRank (r : ChessServerRoom) :
    statusRank r.status ≤ statusRank (r.checkGameEnd).status := by
  cases hm : r.chess.isCheckmate
  · cases hs : r.chess.isStalemate
    · cases hd : r.chess.isDraw
      · rw [checkGameEnd_quiet r hm hs hd, pauseColorTimers_status]
      · rw [checkGameEnd_status_terminal r (Or.inr (Or.inr hd))]
        exact statusRank_le_finished _
    · rw [checkGameEnd_status_terminal r (Or.inr (Or.inl hs))]
      exact statusRank_le_finished _
  · rw [checkGameEnd_status_terminal r (Or.inl hm)]
    exact statusRank_le_finished _

end ChessServerRoom

namespace ChessServerRoom

/-- With checkmate reported, `checkGameEnd` records `Checkmate` with the side
opposite to the post-move turn as winner and finishes the game. -/
theorem checkGameEnd_mate (r : ChessServerRoom) (h : r.chess.isCheckmate = true) :
    (r.checkGameEnd).resolution = some GameResolution.Checkmate ∧
    (r.checkGameEnd).winnerID =
      (if r.chess.turn = Color.White then r.blackPlayerID else r.whitePlayerID) ∧
    (r.checkGameEnd).status = GameStatus.Finished := by
  have hch : (r.pauseColorTimers).chess = r.chess := pauseColorTimers_chess r
  have hmate := isFinishCondUpd_mate (r.pauseColorTimers) (by rw [hch]; exact h)
  unfold checkGameEnd
  dsimp only
  split
  · next hc => exact absurd (by rw [isFinishCondUpd_snd, hch, h]; simp) hc
  · refine ⟨?_, ?_, ?_⟩
    · rw [saveGame_resolution, checkInactivity_resolution]
      split
      · split <;> simp [stopDisconnectTimers_resolution, hmate.1]
      · simp [stopDisconnectTimers_resolution, hmate.1]
    · rw [saveGame_winnerID, checkInactivity_winnerID]
      split
      · split <;>
          simp [stopDisconnectTimers_winnerID, hmate.2.1, hch,
            pauseColorTimers_whitePlayerID, pauseColorTimers_blackPlayerID]
      · simp [stopDisconnectTimers_winnerID, hmate.2.1, hch,
          pauseColorTimers_whitePlayerID, pauseColorTimers_blackPlayerID]
    · rw [saveGame_status, checkInactivity_status]
      split
      · split <;> simp [stopDisconnectTimers_status]
      · simp [stopDisconnectTimers_status]

/-- With stalemate (and no checkmate) reported, `checkGameEnd` records
`Stalemate`, leaves the winner untouched and finishes the game. -/
theorem checkGameEnd_stalemate (r : ChessServerRoom)
    (h1 : r.chess.isCheckmate = false) (h2 : r.chess.isStalemate = true) :
    (r.checkGameEnd).resolution = some GameResolution.Stalemate ∧
    (r.checkGameEnd).winnerID = r.winnerID ∧
    (r.checkGameEnd).status = GameStatus.Finished := by
  have hch : (r.pauseColorTimers).chess = r.chess := pauseColorTimers_chess r
  have hst := isFinishCondUpd_stalemate (r.pauseColorTimers)
    (by rw [hch]; exact h1) (by rw [hch]; exact h2)
  unfold checkGameEnd
  dsimp only
  split
  · next hc => exact absurd (by rw [isFinishCondUpd_snd, hch, h1, h2]; simp) hc
  · refine ⟨?_, ?_, ?_⟩
    · rw [saveGame_resolution, checkInactivity_resolution]
      split
      · split <;> simp [stopDisconnectTimers_resolution, hst.1]
      · simp [stopDisconnectTimers_resolution, hst.1]
    · rw [saveGame_winnerID, checkInactivity_winnerID]
      split
      · split <;> simp [stopDisconnectTimers_winnerID, hst.2.1, pauseColorTimers_winnerID_eq]
      · simp [stopDisconnectTimers_winnerID, hst.2.1, pauseColorTimers_winnerID_eq]
    · rw [saveGame_status, checkInactivity_status]
      split
      · split <;> simp [stopDisconnectTimers_status]
      · simp [stopDisconnectTimers_status]

/-- With a draw (and neither checkmate nor stalemate) reported,
`checkGameEnd` records `Draw`, leaves the winner untouched and finishes. -/
theorem checkGameEnd_draw (r : ChessServerRoom)
    (h1 : r.chess.isCheckmate = false) (h2 : r.chess.isStalemate = false)
    (h3 : r.chess.isDraw = true) :
    (r.checkGameEnd).resolution = some GameResolution.Draw ∧
    (r.checkGameEnd).winnerID = r.winnerID ∧
    (r.checkGameEnd).status = GameStatus.Finished := by
  have hch : (r.pauseColorTimers).chess = r.chess := pauseColorTimers_chess r
  have hdr := isFinishCondUpd_draw (r.pauseColorTimers)
    (by rw [hch]; exact h1) (by rw [hch]; exact h2) (by rw [hch]; exact h3)
  unfold checkGameEnd
  dsimp only
  split
  · next hc => exact absurd (by rw [isFinishCondUpd_snd, hch, h1, h2, h3]; simp) hc
  · refine ⟨?_, ?_, ?_⟩
    · rw [saveGame_resolution, checkInactivity_resolution]
      split
      · split <;> simp [stopDisconnectTimers_resolution, hdr.1]
      · simp [stopDisconnectTimers_resolution, hdr.1]
    · rw [saveGame_winnerID, checkInactivity_winnerID]
      split
      · split <;> simp [stopDisconnectTimers_winnerID, hdr.2.1, pauseColorTimers_winnerID_eq]
      · simp [stopDisconnectTimers_winnerID, hdr.2.1, pauseColorTimers_winnerID_eq]
    · rw [saveGame_status, checkInactivity_status]
      split
      · split <;> simp [stopDisconnectTimers_status]
      · simp [stopDisconnectTimers_status]

/-- With no winner recorded and no checkmate, `checkGameEnd` never touches
the base-class `winnerId` field (`if (winnerId)` is falsy). -/
theorem checkGameEnd_winnerId_of_none (r : ChessServerRoom)
    (hW : r.winnerID = none) (hm : r.chess.isCheckmate = false) :
    (r.checkGameEnd).winnerId = r.winnerId := by
  have hch : (r.pauseColorTimers).chess = r.chess := pauseColorTimers_chess r
  have hnm := isFinishCondUpd_fst_winnerID_of_not_mate (r.pauseColorTimers)
    (by rw [hch]; exact hm)
  unfold checkGameEnd
  dsimp only
  split
  · rw [isFinishCondUpd_fst_winnerId, pauseColorTimers_winnerId]
  · rw [saveGame_winnerId, checkInactivity_winnerId]
    split
    · next w heq =>
      exfalso
      simp only [hnm, pauseColorTimers_winnerID_eq, hW] at heq
      exact Option.noConfusion heq
    · simp [stopDisconnectTimers_winnerId, isFinishCondUpd_fst_winnerId,
        pauseColorTimers_winnerId]

end ChessServerRoom

namespace ChessServerRoom

theorem isFinishCondUpd_fst_whitePlayerID (r : ChessServerRoom) :
    (r.isFinishCondUpd).1.whitePlayerID = r.whitePlayerID := by
  unfold isFinishCondUpd
  split
  · rfl
  · split
    · rfl
    · split <;> rfl

theorem isFinishCondUpd_fst_blackPlayerID (r : ChessServerRoom) :
    (r.isFinishCondUpd).1.blackPlayerID = r.blackPlayerID := by
  unfold isFinishCondUpd
  split
  · rfl
  · split
    · rfl
    · split <;> rfl

/-- With no terminal condition, the post-move check does nothing. -/
theorem afterMoveCheck_quiet (r : ChessServerRoom)
    (h1 : r.chess.isCheckmate = false) (h2 : r.chess.isStalemate = false)
    (h3 : r.chess.isDraw = false) :
    r.afterMoveCheck = r := by
  unfold afterMoveCheck
  have hq := isFinishCondUpd_quiet r h1 h2 h3
  simp [hq]

/-- With checkmate reported after the move, the post-move check finishes the
game with `Checkmate` and the side opposite to the post-move turn as winner. -/
theorem afterMoveCheck_mate (r : ChessServerRoom) (h : r.chess.isCheckmate = true) :
    (r.afterMoveCheck).resolution = some GameResolution.Checkmate ∧
    (r.afterMoveCheck).winnerID =
      (if r.chess.turn = Color.White then r.blackPlayerID else r.whitePlayerID) ∧
    (r.afterMoveCheck).status = GameStatus.Finished := by
  unfold afterMoveCheck
  dsimp only
  split
  · have h1 : (r.isFinishCondUpd).1.chess.isCheckmate = true := by
      rw [isFinishCondUpd_fst_chess]; exact h
    have hmm := checkGameEnd_mate _ h1
    refine ⟨hmm.1, ?_, hmm.2.2⟩
    rw [hmm.2.1, isFinishCondUpd_fst_chess, isFinishCondUpd_fst_whitePlayerID,
      isFinishCondUpd_fst_blackPlayerID]
  · next hc => exact absurd (by rw [isFinishCondUpd_snd, h]; simp) hc

/-- With stalemate reported after the move, the post-move check finishes the
game with `Stalemate` and does not record a winner. -/
theorem afterMoveCheck_stalemate (r : ChessServerRoom)
    (h1 : r.chess.isCheckmate = false) (h2 : r.chess.isStalemate = true) :
    (r.afterMoveCheck).resolution = some GameResolution.Stalemate ∧
    (r.afterMoveCheck).winnerID = r.winnerID ∧
    (r.afterMoveCheck).status = GameStatus.Finished := by
  unfold afterMoveCheck
  dsimp only
  split
  · have e1 : (r.isFinishCondUpd).1.chess.isCheckmate = false := by
      rw [isFinishCondUpd_fst_chess]; exact h1
    have e2 : (r.isFinishCondUpd).1.chess.isStalemate = true := by
      rw [isFinishCondUpd_fst_chess]; exact h2
    have hst := checkGameEnd_stalemate _ e1 e2
    refine ⟨hst.1, ?_, hst.2.2⟩
    rw [hst.2.1, isFinishCondUpd_fst_winnerID_of_not_mate r h1]
  · next hc => exact absurd (by rw [isFinishCondUpd_snd, h2]; simp) hc

/-- With a draw reported after the move, the post-move check finishes the
game with `Draw` and does not record a winner. -/
theorem afterMoveCheck_draw (r : ChessServerRoom)
    (h1 : r.chess.isCheckmate = false) (h2 : r.chess.isStalemate = false)
    (h3 : r.chess.isDraw = true) :
    (r.afterMoveCheck).resolution = some GameResolution.Draw ∧
    (r.afterMoveCheck).winnerID = r.winnerID ∧
    (r.afterMoveCheck).status = GameStatus.Finished := by
  unfold afterMoveCheck
  dsimp only
  split
  · have e1 : (r.isFinishCondUpd).1.chess.isCheckmate = false := by
      rw [isFinishCondUpd_fst_chess]; exact h1
    have e2 : (r.isFinishCondUpd).1.chess.isStalemate = false := by
      rw [isFinishCondUpd_fst_chess]; exact h2
    have e3 : (r.isFinishCondUpd).1.chess.isDraw = true := by
      rw [isFinishCondUpd_fst_chess]; exact h3
    have hdr := checkGameEnd_draw _ e1 e2 e3
    refine ⟨hdr.1, ?_, hdr.2.2⟩
    rw [hdr.2.1, isFinishCondUpd_fst_winnerID_of_not_mate r h1]
  · next hc => exact absurd (by rw [isFinishCondUpd_snd, h3]; simp) hc

/-- The post-move check never moves the status backwards. -/
theorem afterMoveCheck_statusRank (r : ChessServerRoom) :
    statusRank r.status ≤ statusRank (r.afterMoveCheck).status := by
  unfold afterMoveCheck
  dsimp only
  split
  · exact le_trans (le_of_eq (congrArg statusRank (isFinishCondUpd_fst_status r).symm))
      (checkGameEnd_statusRank _)
  · exact le_of_eq (congrArg statusRank (isFinishCondUpd_fst_status r).symm)

/-- The post-move check preserves clock mutual exclusion. -/
theorem afterMoveCheck_atMostOne (r : ChessServerRoom) (h : atMostOneClock r) :
    atMostOneClock r.afterMoveCheck := by
  unfold afterMoveCheck
  dsimp only
  split
  · left
    rw [checkGameEnd_whiteTimer]
    exact timerGoing_map_pause _
  · unfold atMostOneClock at h ⊢
    rw [isFinishCondUpd_fst_whiteTimer, isFinishCondUpd_fst_blackTimer]
    exact h

/-- With no winner recorded and no checkmate, the post-move check leaves the
base-class `winnerId` untouched. -/
theorem afterMoveCheck_winnerId_none (r : ChessServerRoom)
    (hW : r.winnerID = none) (hm : r.chess.isCheckmate = false) :
    (r.afterMoveCheck).winnerId = r.winnerId := by
  unfold afterMoveCheck
  dsimp only
  split
  · have e1 : (r.isFinishCondUpd).1.winnerID = none := by
      rw [isFinishCondUpd_fst_winnerID_of_not_mate r hm, hW]
    have e2 : (r.isFinishCondUpd).1.chess.isCheckmate = false := by
      rw [isFinishCondUpd_fst_chess]; exact hm
    rw [checkGameEnd_winnerId_of_none _ e1 e2, isFinishCondUpd_fst_winnerId]
  · rw [isFinishCondUpd_fst_winnerId]

end ChessServerRoom

namespace ChessServerRoom

/-- A clock that was just started is counting down. -/
theorem timerGoing_some_start (t : PausableTimer) :
    timerGoing (some t.start) = true := by
  cases ht : t.isGoing <;> simp [PausableTimer.start, timerGoing, ht]

/-- Bridging form of `afterMoveCheck_statusRank` for a state whose status
agrees with a reference state. -/
theorem afterMoveCheck_statusRank_of (r0 X : ChessServerRoom)
    (h : statusRank r0.status ≤ statusRank X.status) :
    statusRank r0.status ≤ statusRank (X.afterMoveCheck).status :=
  le_trans h (afterMoveCheck_statusRank X)

/-- `handleMove` never moves the status backwards. -/
theorem handleMove_statusRank (r : ChessServerRoom) (m : Move) (v : MoveVerdict) (c : Color) :
    statusRank r.status ≤ statusRank ((r.handleMove m v c).1).status := by
  unfold handleMove
  dsimp only
  split
  · exact le_refl _
  · split
    · exact le_refl _
    · split
      · exact le_refl _
      · split
        · split
          · split
            · exact le_refl _
            · split
              · exact le_refl _
              · exact afterMoveCheck_statusRank_of r _ (le_of_eq rfl)
          · split
            · exact le_refl _
            · split
              · exact le_refl _
              · exact afterMoveCheck_statusRank_of r _ (le_of_eq rfl)
        · exact afterMoveCheck_statusRank_of r _ (le_of_eq rfl)

/-- `handleMove` preserves clock mutual exclusion. -/
theorem handleMove_atMostOne (r : ChessServerRoom) (m : Move) (v : MoveVerdict) (c : Color)
    (h : atMostOneClock r) : atMostOneClock ((r.handleMove m v c).1) := by
  unfold handleMove
  dsimp only
  split
  · exact h
  · split
    · exact h
    · split
      · exact h
      · split
        · split
          · split
            · exact h
            · split
              · next heq => exact Or.inr (by simp [timerGoing, heq])
              · exact afterMoveCheck_atMostOne _ (Or.inr rfl)
          · split
            · exact h
            · split
              · next heq => exact Or.inl (by simp [timerGoing, heq])
              · exact afterMoveCheck_atMostOne _ (Or.inl rfl)
        · exact afterMoveCheck_atMostOne _ h

end ChessServerRoom

namespace ChessServerRoom

/-- Clock mutual exclusion transports along equal clock fields. -/
theorem atMostOneClock_of_eq (r1 r2 : ChessServerRoom)
    (hw : r2.whiteTimer = r1.whiteTimer) (hb : r2.blackTimer = r1.blackTimer)
    (h : atMostOneClock r1) : atMostOneClock r2 := by
  unfold atMostOneClock at h ⊢
  rw [hw, hb]
  exact h

theorem selectOpponent_status (r : ChessServerRoom) :
    (r.selectOpponent).status = r.status := by
  unfold selectOpponent
  dsimp only
  split
  · rfl
  · split <;> rfl

theorem selectOpponent_whiteTimer (r : ChessServerRoom) :
    (r.selectOpponent).whiteTimer = r.whiteTimer := by
  unfold selectOpponent
  dsimp only
  split
  · rfl
  · split <;> rfl

theorem selectOpponent_blackTimer (r : ChessServerRoom) :
    (r.selectOpponent).blackTimer = r.blackTimer := by
  unfold selectOpponent
  dsimp only
  split
  · rfl
  · split <;> rfl

theorem selectOpponent_gameRules (r : ChessServerRoom) :
    (r.selectOpponent).gameRules = r.gameRules := by
  unfold selectOpponent
  dsimp only
  split
  · rfl
  · split <;> rfl

/-- Setting up the game always leaves it `InProgress`. -/
theorem setUpGameBeforeStart_status (r : ChessServerRoom) :
    (r.setUpGameBeforeStart).status = GameStatus.InProgress := by
  unfold setUpGameBeforeStart
  dsimp only
  split <;> rfl

/-- Setting up the game establishes clock mutual exclusion (only White's
clock is started). -/
theorem setUpGameBeforeStart_atMostOne (r : ChessServerRoom) (h : atMostOneClock r) :
    atMostOneClock r.setUpGameBeforeStart := by
  unfold setUpGameBeforeStart
  dsimp only
  split
  · exact Or.inr rfl
  · exact atMostOneClock_of_eq r _ (selectOpponent_whiteTimer r) (selectOpponent_blackTimer r) h

theorem startGame_status (r : ChessServerRoom) :
    (r.startGame).status = GameStatus.InProgress := by
  unfold startGame
  exact setUpGameBeforeStart_status r

theorem startGame_atMostOne (r : ChessServerRoom) (h : atMostOneClock r) :
    atMostOneClock r.startGame := by
  unfold startGame
  exact atMostOneClock_of_eq _ _ rfl rfl (setUpGameBeforeStart_atMostOne r h)

theorem acceptConnectionBase_status (r : ChessServerRoom) (u : User) (now : Nat) :
    ((r.acceptConnectionBase u now).1).status = r.status := by
  unfold acceptConnectionBase
  dsimp only
  split
  · rfl
  · repeat' split
    all_goals rfl

theorem acceptConnectionBase_whiteTimer (r : ChessServerRoom) (u : User) (now : Nat) :
    ((r.acceptConnectionBase u now).1).whiteTimer = r.whiteTimer := by
  unfold acceptConnectionBase
  dsimp only
  split
  · rfl
  · repeat' split
    all_goals rfl

theorem acceptConnectionBase_blackTimer (r : ChessServerRoom) (u : User) (now : Nat) :
    ((r.acceptConnectionBase u now).1).blackTimer = r.blackTimer := by
  unfold acceptConnectionBase
  dsimp only
  split
  · rfl
  · repeat' split
    all_goals rfl

theorem acceptConnection_statusRank (r : ChessServerRoom) (u : User) (now : Nat) :
    statusRank r.status ≤ statusRank ((r.acceptConnection u now).1).status := by
  unfold acceptConnection
  split
  · next r1 e heq =>
    have hb := acceptConnectionBase_status r u now
    rw [heq] at hb
    exact le_of_eq (congrArg statusRank hb.symm)
  · next r1 heq =>
    have hb := acceptConnectionBase_status r u now
    rw [heq] at hb
    split
    · next hcond =>
      rw [startGame_status, ← hb, hcond.1]
      decide
    · exact le_of_eq (congrArg statusRank hb.symm)

theorem acceptConnection_atMostOne (r : ChessServerRoom) (u : User) (now : Nat)
    (h : atMostOneClock r) : atMostOneClock ((r.acceptConnection u now).1) := by
  unfold acceptConnection
  split
  · next r1 e heq =>
    have hw := acceptConnectionBase_whiteTimer r u now
    have hbk := acceptConnectionBase_blackTimer r u now
    rw [heq] at hw hbk
    exact atMostOneClock_of_eq r _ hw hbk h
  · next r1 heq =>
    have hw := acceptConnectionBase_whiteTimer r u now
    have hbk := acceptConnectionBase_blackTimer r u now
    rw [heq] at hw hbk
    split
    · exact startGame_atMostOne r1 (atMostOneClock_of_eq r _ hw hbk h)
    · exact atMostOneClock_of_eq r _ hw hbk h

theorem handleDisconnect_status (r : ChessServerRoom) (uid : Nat) :
    (r.handleDisconnect uid).status = r.status := by
  unfold handleDisconnect
  dsimp only
  split
  · rfl
  · rw [checkInactivity_status]
    split
    · split <;> rfl
    · rfl

theorem handleDisconnect_whiteTimer (r : ChessServerRoom) (uid : Nat) :
    (r.handleDisconnect uid).whiteTimer = r.whiteTimer := by
  unfold handleDisconnect
  dsimp only
  split
  · rfl
  · rw [checkInactivity_whiteTimer]
    split
    · split <;> rfl
    · rfl

theorem handleDisconnect_blackTimer (r : ChessServerRoom) (uid : Nat) :
    (r.handleDisconnect uid).blackTimer = r.blackTimer := by
  unfold handleDisconnect
  dsimp only
  split
  · rfl
  · rw [checkInactivity_blackTimer]
    split
    · split <;> rfl
    · rfl

theorem handleGiveUp_statusRank (r : ChessServerRoom) (c : Color) :
    statusRank r.status ≤ statusRank (r.handleGiveUp c).status := by
  unfold handleGiveUp
  dsimp only
  split
  · exact le_refl _
  · rw [saveGame_status, checkInactivity_status]
    simp only [stopDisconnectTimers_status, pauseColorTimers_status]
    exact statusRank_le_finished _

theorem handleGiveUp_atMostOne (r : ChessServerRoom) (c : Color) (h : atMostOneClock r) :
    atMostOneClock (r.handleGiveUp c) := by
  unfold handleGiveUp
  dsimp only
  split
  · exact h
  · left
    rw [saveGame_whiteTimer, checkInactivity_whiteTimer]
    simp only [stopDisconnectTimers_whiteTimer, pauseColorTimers_whiteTimer]
    exact timerGoing_map_pause _

theorem handleDisconnectTimeout_statusRank (r : ChessServerRoom) (uid : Nat) :
    statusRank r.status ≤ statusRank (r.handleDisconnectTimeout uid).status := by
  unfold handleDisconnectTimeout
  dsimp only
  rw [pauseColorTimers_status, saveGame_status]
  simp only [stopDisconnectTimers_status]
  exact statusRank_le_finished _

theorem handleDisconnectTimeout_atMostOne (r : ChessServerRoom) (uid : Nat) :
    atMostOneClock (r.handleDisconnectTimeout uid) := by
  unfold handleDisconnectTimeout
  dsimp only
  left
  rw [pauseColorTimers_whiteTimer]
  exact timerGoing_map_pause _

theorem handleTimerOut_statusRank (r : ChessServerRoom) (side : Color) :
    statusRank r.status ≤ statusRank (r.handleTimerOut side).status := by
  unfold handleTimerOut
  dsimp only
  split
  · rw [saveGame_status, checkInactivity_status]
    simp only [stopDisconnectTimers_status]
    exact statusRank_le_finished _
  · exact le_refl _
  · exact le_refl _

theorem handleTimerOut_atMostOne (r : ChessServerRoom) (side : Color)
    (h : atMostOneClock r) : atMostOneClock (r.handleTimerOut side) := by
  unfold handleTimerOut
  dsimp only
  split
  · left
    rw [saveGame_whiteTimer, checkInactivity_whiteTimer]
    simp [stopDisconnectTimers_whiteTimer, timerGoing, PausableTimer.stop]
  · exact h
  · left
    simp [timerGoing, PausableTimer.stop]

end ChessServerRoom

namespace ChessServerRoom

/-- No single operation ever moves the status backwards. -/
theorem step_statusRank (r : ChessServerRoom) (op : Op) :
    statusRank r.status ≤ statusRank (step r op).status := by
  cases op with
  | acceptConnection u now => exact acceptConnection_statusRank r u now
  | handleDisconnect uid => exact le_of_eq (congrArg statusRank (handleDisconnect_status r uid).symm)
  | makeMove m v c => exact handleMove_statusRank r m v c
  | giveUp c => exact handleGiveUp_statusRank r c
  | disconnectTimeout uid => exact handleDisconnectTimeout_statusRank r uid
  | timerOut side => exact handleTimerOut_statusRank r side
  | inactivityTimeout => exact le_refl _

/-- Every single operation preserves clock mutual exclusion. -/
theorem step_atMostOne (r : ChessServerRoom) (op : Op) (h : atMostOneClock r) :
    atMostOneClock (step r op) := by
  cases op with
  | acceptConnection u now => exact acceptConnection_atMostOne r u now h
  | handleDisconnect uid =>
    exact atMostOneClock_of_eq r _ (handleDisconnect_whiteTimer r uid)
      (handleDisconnect_blackTimer r uid) h
  | makeMove m v c => exact handleMove_atMostOne r m v c h
  | giveUp c => exact handleGiveUp_atMostOne r c h
  | disconnectTimeout uid => exact handleDisconnectTimeout_atMostOne r uid
  | timerOut side => exact handleTimerOut_atMostOne r side h
  | inactivityTimeout => exact h

/-- Status-rank monotonicity extends to arbitrary operation sequences. -/
theorem run_statusRank (ops : List Op) : ∀ r : ChessServerRoom,
    statusRank r.status ≤ statusRank (run r ops).status := by
  induction ops with
  | nil => exact fun r => le_refl _
  | cons op ops ih => exact fun r => le_trans (step_statusRank r op) (ih (step r op))

/-- Clock mutual exclusion extends to arbitrary operation sequences. -/
theorem run_atMostOne (ops : List Op) : ∀ r : ChessServerRoom,
    atMostOneClock r → atMostOneClock (run r ops) := by
  induction ops with
  | nil => exact fun r h => h
  | cons op ops ih => exact fun r h => ih (step r op) (step_atMostOne r op h)

/-- A freshly constructed room has no clocks at all. -/
theorem new_atMostOne (host : User) (gameRules : GameRules) (id : String)
    (randomColor : Color) (isFake : Bool) (now : Nat) :
    atMostOneClock (ChessServerRoom.new host gameRules id randomColor isFake now) :=
  Or.inl rfl

end ChessServerRoom

namespace ChessServerRoom

/-! The descending stable sort of `selectOpponent`: membership, sortedness,
and minimality of the popped (last) element. -/

theorem mem_insertDesc (x y : MemberSession) : ∀ l : List MemberSession,
    (y ∈ insertDesc x l ↔ y = x ∨ y ∈ l) := by
  intro l
  induction l with
  | nil => simp [insertDesc]
  | cons z l ih =>
    unfold insertDesc
    split
    · simp [List.mem_cons]
    · simp only [List.mem_cons, ih]
      tauto

theorem sortedDescBy_insertDesc (x : MemberSession) : ∀ l : List MemberSession,
    SortedDescBy l → SortedDescBy (insertDesc x l) := by
  intro l
  induction l with
  | nil => intro _; exact trivial
  | cons z l ih =>
    intro hs
    unfold insertDesc
    split
    · next hzx => exact ⟨hzx, hs⟩
    · next hzx =>
      cases l with
      | nil => exact ⟨le_of_not_le hzx, trivial⟩
      | cons w l2 =>
        obtain ⟨hwz, hwl⟩ := hs
        unfold insertDesc
        split
        · next hwx => exact ⟨le_of_not_le hzx, hwx, hwl⟩
        · next hwx =>
          have h2 := ih hwl
          unfold insertDesc at h2
          rw [if_neg hwx] at h2
          exact ⟨hwz, h2⟩

theorem sortedDescBy_sortDesc : ∀ l : List MemberSession, SortedDescBy (sortDesc l) := by
  intro l
  induction l with
  | nil => exact trivial
  | cons x l ih => exact sortedDescBy_insertDesc x _ ih

theorem mem_sortDesc (y : MemberSession) : ∀ l : List MemberSession,
    (y ∈ sortDesc l ↔ y ∈ l) := by
  intro l
  induction l with
  | nil => simp [sortDesc]
  | cons x l ih =>
    unfold sortDesc
    rw [mem_insertDesc, ih]
    simp [List.mem_cons]

theorem getLast?_mem_of_sessions (z : MemberSession) : ∀ l : List MemberSession,
    l.getLast? = some z → z ∈ l := by
  intro l
  induction l with
  | nil => intro h; exact absurd h (by simp)
  | cons a l ih =>
    intro h
    cases l with
    | nil =>
      simp only [List.getLast?_singleton, Option.some.injEq] at h
      simp [h]
    | cons b l2 =>
      rw [List.getLast?_cons_cons] at h
      exact List.mem_cons_of_mem a (ih h)

theorem getLast?_min_of_sorted (z : MemberSession) : ∀ l : List MemberSession,
    SortedDescBy l → l.getLast? = some z → ∀ y ∈ l, z.joined ≤ y.joined := by
  intro l
  induction l with
  | nil => intro _ h; exact absurd h (by simp)
  | cons a l ih =>
    intro hs h y hy
    cases l with
    | nil =>
      simp only [List.getLast?_singleton, Option.some.injEq] at h
      simp only [List.mem_singleton] at hy
      subst h; subst hy; exact le_refl _
    | cons b l2 =>
      obtain ⟨hba, hbl⟩ := hs
      rw [List.getLast?_cons_cons] at h
      rcases List.mem_cons.mp hy with hya | hyl
      · subst hya
        exact le_trans (ih hbl h b (List.mem_cons_self b l2)) hba
      · exact ih hbl h y hyl

/-- The session `selectOpponent` pops is a connected non-player with the
least join timestamp among all connected non-players. -/
theorem selectedOpponent_min (r : ChessServerRoom) (sel : MemberSession)
    (h : r.selectedOpponent = some sel) :
    sel ∈ r.nonPlayerConnected ∧ ∀ y ∈ r.nonPlayerConnected, sel.joined ≤ y.joined := by
  unfold selectedOpponent at h
  constructor
  · exact (mem_sortDesc sel _).mp (getLast?_mem_of_sessions sel _ h)
  · intro y hy
    exact getLast?_min_of_sorted sel _ (sortedDescBy_sortDesc _) h y ((mem_sortDesc y _).mpr hy)

end ChessServerRoom

namespace ChessServerRoom

/-- After `this.sessions[uid] = s`, looking up `uid` finds `s`. -/
theorem find?_storeSession (uid : Nat) (s : MemberSession) :
    ∀ sessions : List (Nat × MemberSession),
    (storeSession sessions uid s).find? (fun p => p.1 = uid) = some (uid, s) := by
  intro sessions
  induction sessions with
  | nil => simp [storeSession, List.find?]
  | cons kv rest ih =>
    obtain ⟨k, v⟩ := kv
    unfold storeSession
    split
    · simp [List.find?]
    · split
      · simp [List.find?]
      · next hne _ =>
        have hd : (decide ((k, v).1 = uid)) = false :=
          decide_eq_false (fun hh => hne hh.symm)
        simp only [List.find?, hd]
        exact ih

/-- What `selectOpponent` does when a candidate exists: it picks the
connected non-player with the least join timestamp, promotes it to player
with the color complementary to the host's, binds the matching player slot
and broadcasts the membership change. -/
theorem selectOpponent_spec (r : ChessServerRoom) (sel : MemberSession)
    (h : r.selectedOpponent = some sel) :
    (sel ∈ r.nonPlayerConnected ∧ ∀ y ∈ r.nonPlayerConnected, sel.joined ≤ y.joined) ∧
    (r.selectOpponent).lookupSession sel.member.user.id =
      some { sel with member := { sel.member with state :=
        { connected := sel.member.state.connected, isPlayer := true
          color := some (swapColor r.hostColor) } } } ∧
    (r.selectOpponent).events = r.events ++
      [Event.memberUpdate sel.member.user.id
        { connected := sel.member.state.connected, isPlayer := true
          color := some (swapColor r.hostColor) }] ∧
    (swapColor r.hostColor = Color.White →
      (r.selectOpponent).whitePlayerID = some sel.member.user.id) ∧
    (swapColor r.hostColor = Color.Black →
      (r.selectOpponent).blackPlayerID = some sel.member.user.id) := by
  refine ⟨selectedOpponent_min r sel h, ?_⟩
  unfold selectOpponent
  dsimp only
  simp only [h]
  split
  · next hsw =>
    refine ⟨?_, rfl, fun _ => rfl, fun habs => ?_⟩
    · unfold lookupSession
      dsimp only
      rw [find?_storeSession]
      rfl
    · rw [hsw] at habs
      exact absurd habs (by simp)
  · next hsw =>
    refine ⟨?_, rfl, fun habs => absurd habs hsw, fun _ => rfl⟩
    unfold lookupSession
    dsimp only
    rw [find?_storeSession]
    rfl

end ChessServerRoom

namespace ChessServerRoom

/-- Shape of a successful `handleMove` (in-progress, in turn, legal, clocks
present when enabled): the result is `afterMoveCheck` of a state whose oracle
carries the move's verdict and whose game bookkeeping is untouched. -/
theorem handleMove_success (r : ChessServerRoom) (m : Move) (v : MoveVerdict)
    (hs : r.status = GameStatus.InProgress) (hl : v.legal = true)
    (htim : r.gameRules.timer = true → r.whiteTimer.isSome = true ∧ r.blackTimer.isSome = true) :
    ∃ X : ChessServerRoom, (r.handleMove m v r.chess.turn).1 = X.afterMoveCheck ∧
      X.chess = { turn := swapColor r.chess.turn, history := r.chess.history ++ [m]
                  isCheckmate := v.isCheckmate, isStalemate := v.isStalemate
                  isDraw := v.isDraw } ∧
      X.whitePlayerID = r.whitePlayerID ∧ X.blackPlayerID = r.blackPlayerID ∧
      X.winnerID = r.winnerID ∧ X.winnerId = r.winnerId ∧ X.status = r.status := by
  have h1 : ¬ (¬ r.status = GameStatus.InProgress) := by simp [hs]
  have h2 : ¬ (¬ r.chess.turn = r.chess.turn) := by simp
  have hmv : r.chess.move m v =
      some { turn := swapColor r.chess.turn, history := r.chess.history ++ [m]
             isCheckmate := v.isCheckmate, isStalemate := v.isStalemate
             isDraw := v.isDraw } := by
    unfold Chess.move
    rw [if_pos hl]
  unfold handleMove
  dsimp only
  rw [if_neg h1, if_neg h2]
  simp only [hmv]
  split
  · next htt =>
    obtain ⟨hw1, hb1⟩ := htim htt
    obtain ⟨w, hw⟩ := Option.isSome_iff_exists.mp hw1
    obtain ⟨b, hb⟩ := Option.isSome_iff_exists.mp hb1
    simp only [hw, hb]
    split
    · exact ⟨_, rfl, rfl, rfl, rfl, rfl, rfl, rfl⟩
    · exact ⟨_, rfl, rfl, rfl, rfl, rfl, rfl, rfl⟩
  · exact ⟨_, rfl, rfl, rfl, rfl, rfl, rfl, rfl⟩

end ChessServerRoom

open ChessServerRoom

/-- C7: for every room state and every sequence of operations (connections,
disconnections, moves, resignations, timer expiries), the game status only
moves forward through NotStarted → InProgress → Finished: the forward rank
never decreases, so no operation sequence ever takes a room from Finished
back to InProgress or from InProgress back to NotStarted. -/
theorem C7_status_monotone (r : ChessServerRoom) (ops : List Op) :
    statusRank r.status ≤ statusRank (run r ops).status :=
  run_statusRank ops r

/-- C8: in every state reachable at operation boundaries from a freshly
constructed room, while the game is in progress at most one of the white and
black clocks is actively counting down; the invariant is established at game
start (only White's clock is started) and preserved by every operation. -/
theorem C8_clock_mutual_exclusion (host : User) (gameRules : GameRules) (id : String)
    (randomColor : Color) (isFake : Bool) (now : Nat) (ops : List Op)
    (_hIP : (run (ChessServerRoom.new host gameRules id randomColor isFake now) ops).status =
      GameStatus.InProgress) :
    atMostOneClock (run (ChessServerRoom.new host gameRules id randomColor isFake now) ops) :=
  run_atMostOne ops _ (new_atMostOne host gameRules id randomColor isFake now)

/-- Witness for C8: the spec §8 timer room right after the game started is in
progress, and its clocks satisfy the mutual-exclusion invariant. -/
theorem C8_witness :
    atMostOneClock (run (ChessServerRoom.new ⟨1⟩ rulesTimer "roomT" Color.White false 0) opsStart) :=
  C8_clock_mutual_exclusion ⟨1⟩ rulesTimer "roomT" Color.White false 0 opsStart rfl

/-- C6: a move submitted while the game is not in progress, or by a player
whose color does not match the oracle's current turn, is rejected with an
`IllegalMoveError` and mutates nothing: the room (oracle, clocks, event log)
is returned unchanged. -/
theorem C6_reject_no_mutation (r : ChessServerRoom) (m : Move) (v : MoveVerdict) (c : Color)
    (h : ¬ r.status = GameStatus.InProgress ∨ ¬ r.chess.turn = c) :
    (r.handleMove m v c).1 = r ∧
    ∃ msg, (r.handleMove m v c).2 = some (RoomError.IllegalMove msg) := by
  unfold handleMove
  by_cases hs : ¬ r.status = GameStatus.InProgress
  · rw [if_pos hs]
    exact ⟨rfl, _, rfl⟩
  · rcases h with h | h
    · exact absurd h hs
    · rw [if_neg hs, if_pos h]
      exact ⟨rfl, _, rfl⟩

/-- Witness for C6: in the started timer room it is White's turn, so a move
submitted as Black is rejected with an `IllegalMoveError` and the room is
unchanged. -/
theorem C6_witness :
    (tStarted.handleMove mvA vQuiet Color.Black).1 = tStarted ∧
    ∃ msg, (tStarted.handleMove mvA vQuiet Color.Black).2 = some (RoomError.IllegalMove msg) :=
  C6_reject_no_mutation tStarted mvA vQuiet Color.Black (Or.inr (by decide))

/-- C9: `acceptConnection` throws `AlreadyConnectedError` exactly when the
connecting user already has an active connection (session present and marked
connected); in that case the room — sessions, timers, event log — is
returned entirely unchanged, and when the user is not actively connected no
`AlreadyConnectedError` is raised. -/
theorem C9_duplicate_connection (r : ChessServerRoom) (u : User) (now : Nat) :
    (r.isUserConnected u.id = true →
      r.acceptConnection u now =
        (r, some (RoomError.AlreadyConnected "You can not connect to the same room twice"))) ∧
    (r.isUserConnected u.id = false →
      ∀ msg, ¬ (r.acceptConnection u now).2 = some (RoomError.AlreadyConnected msg)) := by
  constructor
  · intro h
    have hbase : r.acceptConnectionBase u now =
        (r, some (RoomError.AlreadyConnected "You can not connect to the same room twice")) := by
      unfold acceptConnectionBase
      rw [if_pos h]
    unfold acceptConnection
    simp only [hbase]
  · intro h msg
    have hsnd : (r.acceptConnectionBase u now).2 = none := by
      unfold acceptConnectionBase
      rw [if_neg (by simp [h])]
    unfold acceptConnection
    split
    · next r1 e heq =>
      rw [heq] at hsnd
      exact absurd hsnd (by simp)
    · next r1 heq =>
      split <;> simp

/-- Witness for C9: once user 1 is connected, a second connection attempt by
user 1 is rejected with `AlreadyConnectedError` and the room is unchanged. -/
theorem C9_witness :
    (run roomT [Op.acceptConnection ⟨1⟩ 10]).acceptConnection ⟨1⟩ 50 =
      (run roomT [Op.acceptConnection ⟨1⟩ 10],
       some (RoomError.AlreadyConnected "You can not connect to the same room twice")) :=
  (C9_duplicate_connection (run roomT [Op.acceptConnection ⟨1⟩ 10]) ⟨1⟩ 50).1 rfl

/-- C5: when a player's disconnect-grace timer expires, the game ends: the
status becomes Finished, the resolution is PlayerQuit, the winner is the
opponent of the disconnected player, and every session's pending
disconnect timer is cancelled. -/
theorem C5_disconnect_forfeit (r : ChessServerRoom) (uid : Nat)
    (_hp : some uid = r.whitePlayerID ∨ some uid = r.blackPlayerID) :
    (r.handleDisconnectTimeout uid).status = GameStatus.Finished ∧
    (r.handleDisconnectTimeout uid).resolution = some GameResolution.PlayerQuit ∧
    (r.handleDisconnectTimeout uid).winnerID =
      (if some uid = r.whitePlayerID then r.blackPlayerID else r.whitePlayerID) ∧
    ∀ p ∈ (r.handleDisconnectTimeout uid).sessions, timerGoing p.2.disconnectTimer = false := by
  unfold handleDisconnectTimeout
  dsimp only
  refine ⟨?_, ?_, ?_, ?_⟩
  · rw [pauseColorTimers_status, saveGame_status]
    simp [stopDisconnectTimers_status]
  · rw [pauseColorTimers_resolution, saveGame_resolution]
    simp [stopDisconnectTimers_resolution]
  · rw [pauseColorTimers_winnerID_eq, saveGame_winnerID]
    simp [stopDisconnectTimers_winnerID]
  · intro p hmem
    rw [pauseColorTimers_sessions, saveGame_sessions] at hmem
    exact stopDisconnectTimers_stopped _ p hmem

/-- Witness for C5: in the started timer room, user 2 (Black) disconnects and
the grace timer expires: the game finishes with PlayerQuit, the winner is
user 1 (White), and no disconnect timer keeps running. -/
theorem C5_witness :
    ((run roomT (opsStart ++ [Op.handleDisconnect 2])).handleDisconnectTimeout 2).status =
      GameStatus.Finished ∧
    ((run roomT (opsStart ++ [Op.handleDisconnect 2])).handleDisconnectTimeout 2).resolution =
      some GameResolution.PlayerQuit ∧
    ((run roomT (opsStart ++ [Op.handleDisconnect 2])).handleDisconnectTimeout 2).winnerID =
      (if some 2 = (run roomT (opsStart ++ [Op.handleDisconnect 2])).whitePlayerID
       then (run roomT (opsStart ++ [Op.handleDisconnect 2])).blackPlayerID
       else (run roomT (opsStart ++ [Op.handleDisconnect 2])).whitePlayerID) ∧
    ∀ p ∈ ((run roomT (opsStart ++ [Op.handleDisconnect 2])).handleDisconnectTimeout 2).sessions,
      timerGoing p.2.disconnectTimer = false :=
  C5_disconnect_forfeit (run roomT (opsStart ++ [Op.handleDisconnect 2])) 2 (Or.inr rfl)

/-- C2 fails on the code: in a fake room whose game finished (host 1 and
user 2 connected, then White resigned), `ChessServerRoom.saveGame` still
invokes `PlayedGame.create` — the database write log has one entry — even
though `isFake` is set, because only the base-class body checks `isFake`
and the subclass calls `PlayedGame.create` unconditionally after
`super.saveGame()` returns. -/
theorem C2_fake_room_db_write :
    fakeFinished.isFake = true ∧
    fakeFinished.status = GameStatus.Finished ∧
    fakeFinished.dbWrites.length = 1 :=
  ⟨rfl, rfl, rfl⟩

namespace ChessServerRoom

/-- With no recorded winner and no checkmate verdict, `handleMove` never
touches the base-class `winnerId` field, on any of its paths. -/
theorem handleMove_winnerId_preserved (r : ChessServerRoom) (m : Move) (v : MoveVerdict)
    (c : Color) (hW : r.winnerID = none) (hm : v.isCheckmate = false) :
    ((r.handleMove m v c).1).winnerId = r.winnerId := by
  unfold handleMove
  dsimp only
  split
  · rfl
  · split
    · rfl
    · split
      · rfl
      · next chess2 heq =>
        have hc2 : chess2.isCheckmate = false := by
          unfold Chess.move at heq
          split at heq
          · injection heq with h2
            rw [← h2]
            exact hm
          · exact absurd heq (by simp)
        split
        · split
          · split
            · rfl
            · split
              · rfl
              · exact afterMoveCheck_winnerId_none _ hW hc2
          · split
            · rfl
            · split
              · rfl
              · exact afterMoveCheck_winnerId_none _ hW hc2
        · exact afterMoveCheck_winnerId_none _ hW hc2

end ChessServerRoom

/-- C10 (implicit): `winnerId` is initialised to 0 at construction, and a
game that finishes with no winner (stalemate or draw verdict, no recorded
winner) leaves `winnerId` at 0; `getWinnerId` then looks up the session
keyed 0 with no existence check, so it fails (returns nothing) unless a
member with user id 0 happens to exist. -/
theorem C10_winnerId_zero_on_draw :
    (∀ (host : User) (gameRules : GameRules) (id : String) (randomColor : Color)
        (isFake : Bool) (now : Nat),
      (ChessServerRoom.new host gameRules id randomColor isFake now).winnerId = 0) ∧
    (∀ (r : ChessServerRoom) (m : Move) (v : MoveVerdict) (c : Color),
      r.winnerId = 0 → r.winnerID = none → v.isCheckmate = false →
      (v.isStalemate = true ∨ v.isDraw = true) →
      ((r.handleMove m v c).1.winnerId = 0 ∧
       (((r.handleMove m v c).1).lookupSession 0 = none →
        ((r.handleMove m v c).1).getWinnerId = none))) := by
  constructor
  · intro host gameRules id randomColor isFake now
    rfl
  · intro r m v c h0 hW hm _
    have h0' : ((r.handleMove m v c).1).winnerId = 0 :=
      (handleMove_winnerId_preserved r m v c hW hm).trans h0
    refine ⟨h0', ?_⟩
    intro hlk
    unfold getWinnerId
    rw [h0', hlk]
    rfl

/-- Witness for C10: the untimed room ends in stalemate (White's move with a
stalemate verdict); `winnerId` is 0 from construction through the finish,
and `getWinnerId` finds nothing since no member has user id 0. -/
theorem C10_witness :
    (ChessServerRoom.new ⟨1⟩ rulesNoTimer "roomA" Color.White false 0).winnerId = 0 ∧
    ((run roomA opsStart).handleMove mvA vStale Color.White).1.winnerId = 0 ∧
    ((run roomA opsStart).handleMove mvA vStale Color.White).1.getWinnerId = none := by
  have h2 := C10_winnerId_zero_on_draw.2 (run roomA opsStart) mvA vStale Color.White
    rfl rfl rfl (Or.inl rfl)
  exact ⟨C10_winnerId_zero_on_draw.1 ⟨1⟩ rulesNoTimer "roomA" Color.White false 0,
    h2.1, h2.2 rfl⟩

/-- C4: an accepted move (in progress, in turn, legal, clocks present when
enabled) after which the oracle reports checkmate finishes the game with
resolution Checkmate and winner the side that just moved (the color opposite
to the oracle's post-move turn); a stalemate or draw verdict finishes the
game with the corresponding resolution and no winner recorded. -/
theorem C4_checkmate_winner (r : ChessServerRoom) (m : Move) (v : MoveVerdict) (c : Color)
    (hs : r.status = GameStatus.InProgress) (ht : r.chess.turn = c) (hl : v.legal = true)
    (htim : r.gameRules.timer = true → r.whiteTimer.isSome = true ∧ r.blackTimer.isSome = true) :
    (v.isCheckmate = true →
      ((r.handleMove m v c).1.resolution = some GameResolution.Checkmate ∧
       (r.handleMove m v c).1.winnerID =
         (if c = Color.White then r.whitePlayerID else r.blackPlayerID) ∧
       (r.handleMove m v c).1.status = GameStatus.Finished)) ∧
    (v.isCheckmate = false → v.isStalemate = true →
      ((r.handleMove m v c).1.resolution = some GameResolution.Stalemate ∧
       (r.handleMove m v c).1.winnerID = r.winnerID ∧
       (r.handleMove m v c).1.status = GameStatus.Finished)) ∧
    (v.isCheckmate = false → v.isStalemate = false → v.isDraw = true →
      ((r.handleMove m v c).1.resolution = some GameResolution.Draw ∧
       (r.handleMove m v c).1.winnerID = r.winnerID ∧
       (r.handleMove m v c).1.status = GameStatus.Finished)) := by
  subst ht
  obtain ⟨X, hX, hchess, hwp, hbp, hwid, _hwin, _hst⟩ := handleMove_success r m v hs hl htim
  have hturn : X.chess.turn = swapColor r.chess.turn := by rw [hchess]
  rw [hX]
  refine ⟨?_, ?_, ?_⟩
  · intro hm
    have hcm : X.chess.isCheckmate = true := by rw [hchess]; exact hm
    have h3 := afterMoveCheck_mate X hcm
    refine ⟨h3.1, ?_, h3.2.2⟩
    rw [h3.2.1, hturn, hwp, hbp]
    cases h4 : r.chess.turn <;> simp [swapColor]
  · intro hm hst2
    have e1 : X.chess.isCheckmate = false := by rw [hchess]; exact hm
    have e2 : X.chess.isStalemate = true := by rw [hchess]; exact hst2
    have h3 := afterMoveCheck_stalemate X e1 e2
    exact ⟨h3.1, by rw [h3.2.1, hwid], h3.2.2⟩
  · intro hm hst2 hd
    have e1 : X.chess.isCheckmate = false := by rw [hchess]; exact hm
    have e2 : X.chess.isStalemate = false := by rw [hchess]; exact hst2
    have e3 : X.chess.isDraw = true := by rw [hchess]; exact hd
    have h3 := afterMoveCheck_draw X e1 e2 e3
    exact ⟨h3.1, by rw [h3.2.1, hwid], h3.2.2⟩

/-- Witness for C4: in the started timer room, White plays a move with a
checkmate verdict: the game finishes with Checkmate and winner user 1
(White, the side that delivered mate). -/
theorem C4_witness :
    ((run roomT opsStart).handleMove mvA vMate Color.White).1.resolution =
      some GameResolution.Checkmate ∧
    ((run roomT opsStart).handleMove mvA vMate Color.White).1.winnerID = some 1 ∧
    ((run roomT opsStart).handleMove mvA vMate Color.White).1.status = GameStatus.Finished := by
  have h := (C4_checkmate_winner (run roomT opsStart) mvA vMate Color.White
    rfl rfl rfl (by decide)).1 rfl
  refine ⟨h.1, ?_, h.2.2⟩
  rw [h.2.1]
  rfl

/-- C1 fails on the code: in `c1Final` (host 1 preferring White; user 2
joined at time 100; user 3 joined at time 200; the host then connected,
starting the game), the promoted opponent — the Black player — is user 2,
whose join timestamp 100 is the EARLIEST, while user 3 (timestamp 200, still
a connected non-player) joined most recently.  The comparator sorts the
candidates by descending join date and `pop()` takes the last element, so
the earliest joiner is selected, contradicting the claim that the
most-recently-joined candidate is chosen. -/
theorem C1_counterexample :
    c1Final.status = GameStatus.InProgress ∧
    c1Final.blackPlayerID = some 2 ∧
    (c1Final.lookupSession 2).map (fun s => s.joined) = some 100 ∧
    (c1Final.lookupSession 2).map (fun s => s.member.state.isPlayer) = some true ∧
    (c1Final.lookupSession 3).map (fun s => s.joined) = some 200 ∧
    (c1Final.lookupSession 3).map (fun s => s.member.state.isPlayer) = some false ∧
    (c1Final.lookupSession 3).map (fun s => s.member.state.connected) = some true :=
  ⟨rfl, rfl, rfl, rfl, rfl, rfl, rfl⟩

/-- C1 amended: opponent selection promotes the EARLIEST-joined eligible
non-player among currently connected members (the element popped after the
descending-by-join-date sort), assigns it the color complementary to the
host's, binds the matching player slot, and broadcasts the membership
change. -/
theorem C1_amended_selection (r : ChessServerRoom) (sel : MemberSession)
    (h : r.selectedOpponent = some sel) :
    (sel ∈ r.nonPlayerConnected ∧ ∀ y ∈ r.nonPlayerConnected, sel.joined ≤ y.joined) ∧
    (r.selectOpponent).lookupSession sel.member.user.id =
      some { sel with member := { sel.member with state :=
        { connected := sel.member.state.connected, isPlayer := true
          color := some (swapColor r.hostColor) } } } ∧
    (r.selectOpponent).events = r.events ++
      [Event.memberUpdate sel.member.user.id
        { connected := sel.member.state.connected, isPlayer := true
          color := some (swapColor r.hostColor) }] ∧
    (swapColor r.hostColor = Color.White →
      (r.selectOpponent).whitePlayerID = some sel.member.user.id) ∧
    (swapColor r.hostColor = Color.Black →
      (r.selectOpponent).blackPlayerID = some sel.member.user.id) :=
  selectOpponent_spec r sel h

/-- Witness for C1's amended claim: on `c1Pre` (users 2 and 3 connected
non-players, host away and White), the selected candidate is user 2's
session `c1Sel` — the earliest joiner — which is promoted to Black. -/
theorem C1_amended_witness :
    (c1Sel ∈ c1Pre.nonPlayerConnected ∧
      ∀ y ∈ c1Pre.nonPlayerConnected, c1Sel.joined ≤ y.joined) ∧
    (c1Pre.selectOpponent).lookupSession 2 =
      some { member := { user := ⟨2⟩, state :=
               { connected := true, isPlayer := true, color := some Color.Black } }
             hasSocket := true, joined := 100, disconnectTimer := none } ∧
    (c1Pre.selectOpponent).events = c1Pre.events ++
      [Event.memberUpdate 2 { connected := true, isPlayer := true, color := some Color.Black }] ∧
    (Color.Black = Color.White → (c1Pre.selectOpponent).whitePlayerID = some 2) ∧
    (Color.Black = Color.Black → (c1Pre.selectOpponent).blackPlayerID = some 2) :=
  C1_amended_selection c1Pre c1Sel rfl

/-- C3 fails on the code: in the spec §8 scenario (initial 300 s, increment
5 s), White's clock right after White's FIRST accepted move already holds
305 000 ms = initial + increment — the increment is credited to the mover's
clock immediately — whereas the claim says no increment is applied yet
(which would leave 300 000 ms); Black's clock starts at 300 000 ms. -/
theorem C3_counterexample :
    tAfterWhite.whiteTimer = some { timeLeft := 305000, isGoing := false } ∧
    tAfterWhite.blackTimer = some { timeLeft := 300000, isGoing := true } ∧
    rulesTimer.initialTime = some 300 ∧
    rulesTimer.timerIncrement = some 5 ∧
    ¬ (305000 : Int) = 300000 :=
  ⟨rfl, rfl, rfl, rfl, by decide⟩

/-- C3 amended: on every accepted quiet move in a timer-enabled game, the
mover's clock is paused and immediately credited with the per-move
increment, and the opponent's clock is started with its remaining time
unchanged.  In particular White's first move already credits White's clock
with the increment, and Black's subsequent move restarts White's clock
(which already carries the increment) while crediting Black's. -/
theorem C3_amended_increment (r : ChessServerRoom) (m : Move) (v : MoveVerdict) (c : Color)
    (w b : PausableTimer)
    (hs : r.status = GameStatus.InProgress) (ht : r.chess.turn = c) (hl : v.legal = true)
    (hq1 : v.isCheckmate = false) (hq2 : v.isStalemate = false) (hq3 : v.isDraw = false)
    (htt : r.gameRules.timer = true)
    (hw : r.whiteTimer = some w) (hb : r.blackTimer = some b) :
    (c = Color.White →
      ((r.handleMove m v c).1.whiteTimer =
         some ((w.pause).addTime (((r.gameRules.timerIncrement.getD 0 : Nat) : Int) * 1000)) ∧
       (r.handleMove m v c).1.blackTimer = some b.start)) ∧
    (c = Color.Black →
      ((r.handleMove m v c).1.blackTimer =
         some ((b.pause).addTime (((r.gameRules.timerIncrement.getD 0 : Nat) : Int) * 1000)) ∧
       (r.handleMove m v c).1.whiteTimer = some w.start)) := by
  subst ht
  have h1 : ¬ (¬ r.status = GameStatus.InProgress) := by simp [hs]
  have h2 : ¬ (¬ r.chess.turn = r.chess.turn) := by simp
  have hmv : r.chess.move m v =
      some { turn := swapColor r.chess.turn, history := r.chess.history ++ [m]
             isCheckmate := v.isCheckmate, isStalemate := v.isStalemate
             isDraw := v.isDraw } := by
    unfold Chess.move
    rw [if_pos hl]
  constructor
  · intro hc
    unfold handleMove
    dsimp only
    rw [if_neg h1, if_neg h2]
    simp only [hmv, hc, swapColor]
    rw [if_pos htt]
    simp only [hw, hb]
    rw [if_neg (by simp)]
    rw [afterMoveCheck_quiet _ hq1 hq2 hq3]
    exact ⟨rfl, rfl⟩
  · intro hc
    unfold handleMove
    dsimp only
    rw [if_neg h1, if_neg h2]
    simp only [hmv, hc, swapColor]
    rw [if_pos htt]
    simp only [hw, hb]
    rw [if_pos trivial]
    rw [afterMoveCheck_quiet _ hq1 hq2 hq3]
    exact ⟨rfl, rfl⟩

/-- Witness for C3's amended claim: in the started §8 room (it is White's
turn, both clocks at 300 000 ms, White's running), White's accepted quiet
move leaves White's clock paused at 305 000 ms (increment already credited)
and starts Black's clock at 300 000 ms. -/
theorem C3_witness :
    (tStarted.handleMove mvA vQuiet Color.White).1.whiteTimer =
      some { timeLeft := 305000, isGoing := false } ∧
    (tStarted.handleMove mvA vQuiet Color.White).1.blackTimer =
      some { timeLeft := 300000, isGoing := true } :=
  (C3_amended_increment tStarted mvA vQuiet Color.White
    ⟨300000, true⟩ ⟨300000, false⟩ rfl rfl rfl rfl rfl rfl rfl rfl rfl).1 rfl
